import Mathlib

/-!
# ytcd: daily scheduling and subprocess supervision

A shallow embedding of `src/ytcd.c` and the theorems that settle the claims made
about it.

Conventions of the embedding

* C `int` and `size_t` values are `Int` and `Nat`; the one place where unsigned
  wrap-around matters (`channel_name_len - 1`) reduces modulo `2 ^ 64` explicitly.
* A C `char` is a `Char`, a file is the list of its characters, a C string read
  out of a buffer is the run of characters before the first NUL.
* The C library is not part of the repository.  `mktime`, `strftime`, `fgets`
  and `strlen` are modelled after ISO C.  The rules of the local time zone are a
  parameter of `mktime` (`Zone`): which wall-clock times a change of the clocks
  skips, the offset from UTC and the daylight-saving flag.  Where ISO C leaves
  the result to the implementation (a wall-clock time that does not exist) the
  model follows glibc.
* Everything the environment decides is given as data, so every function below
  is a total, executable function: signal delivery, the results of `fork` and
  the results of `waitpid` are scripts carried by the state; the clock, the
  contents of the channels file and the value of `rand` are given per round of
  the outer loop.
* The start of `main` (environment variable, readiness probe of the provider) is
  not part of the embedding; the string it builds is the field
  `bgutil_ytdlp_pot_provider_extractor_args` of the state.
-/

namespace Ytcd

/-! ## Constants of the source -/

/-- The longest valid YouTube channel name (`MAX_YOUTUBE_CHANNEL_NAME_LEN`). -/
def MAX_YOUTUBE_CHANNEL_NAME_LEN : Nat := 64

/-- The size of `break_match_filters_arg`, declared `char [24]`. -/
def sizeof_break_match_filters_arg : Nat := 24

/-- The size of `datebefore_arg`, declared `char [9]`. -/
def sizeof_datebefore_arg : Nat := 9

/-- The size of `channel_name`, declared `char [MAX_YOUTUBE_CHANNEL_NAME_LEN + 2]`. -/
def sizeof_channel_name : Nat := MAX_YOUTUBE_CHANNEL_NAME_LEN + 2

/-- The size of `channel_videos_url`: the name limit plus
`sizeof "https://www.youtube.com/@/videos"`, which counts the final NUL. -/
def sizeof_channel_videos_url : Nat :=
  MAX_YOUTUBE_CHANNEL_NAME_LEN + ("https://www.youtube.com/@/videos".length + 1)

/-- The signal number of `SIGTERM`. -/
def SIGTERM : Nat := 15

/-! ## The calendar -/

/-- A calendar date: year, month (1 = January) and day of the month. -/
structure Date where
  year : Int
  month : Int
  day : Int
deriving DecidableEq

/-- Gregorian leap years. -/
def isLeapYear (year : Int) : Bool :=
  (year % 4 == 0 && year % 100 != 0) || year % 400 == 0

/-- Length of month `month` (1 = January) of `year`, by the calendar rule. -/
def monthLength (year month : Int) : Int :=
  if month = 2 then (if isLeapYear year then 29 else 28)
  else if month = 4 ∨ month = 6 ∨ month = 9 ∨ month = 11 then 30
  else 31

/-- A date of the calendar. -/
def Date.Valid (d : Date) : Prop :=
  1 ≤ d.month ∧ d.month ≤ 12 ∧ 1 ≤ d.day ∧ d.day ≤ monthLength d.year d.month

/-- The day before a date: the previous day of the month, else the last day of
the previous month, else 31 December of the previous year. -/
def Date.pred (d : Date) : Date :=
  if 1 < d.day then ⟨d.year, d.month, d.day - 1⟩
  else if 1 < d.month then ⟨d.year, d.month - 1, monthLength d.year (d.month - 1)⟩
  else ⟨d.year - 1, 12, 31⟩

/-- The day after a date. -/
def Date.succ (d : Date) : Date :=
  if d.day < monthLength d.year d.month then ⟨d.year, d.month, d.day + 1⟩
  else if d.month < 12 then ⟨d.year, d.month + 1, 1⟩
  else ⟨d.year + 1, 1, 1⟩

/-- Days before 1 January of `year`, counted from 1 January of year 1. -/
def daysBeforeYear (year : Int) : Int :=
  365 * (year - 1) + (year - 1) / 4 - (year - 1) / 100 + (year - 1) / 400

/-- Days of `year` before the first of `month`. -/
def daysBeforeMonth (year month : Int) : Int :=
  (if 1 < month then 31 else 0) + (if 2 < month then (if isLeapYear year then 29 else 28) else 0)
  + (if 3 < month then 31 else 0) + (if 4 < month then 30 else 0)
  + (if 5 < month then 31 else 0) + (if 6 < month then 30 else 0)
  + (if 7 < month then 31 else 0) + (if 8 < month then 31 else 0)
  + (if 9 < month then 30 else 0) + (if 10 < month then 31 else 0)
  + (if 11 < month then 30 else 0)

/-- The running day number of a date (1 January of year 1 is day 1). -/
def Date.dayNumber (d : Date) : Int :=
  daysBeforeYear d.year + daysBeforeMonth d.year d.month + d.day

/-- The eight characters `YYYYMMDD` of a date, every field padded with zeros. -/
def Date.yyyymmdd (d : Date) : String :=
  let y := d.year.toNat
  let m := d.month.toNat
  let n := d.day.toNat
  String.mk [Nat.digitChar (y / 1000 % 10), Nat.digitChar (y / 100 % 10),
    Nat.digitChar (y / 10 % 10), Nat.digitChar (y % 10),
    Nat.digitChar (m / 10 % 10), Nat.digitChar (m % 10),
    Nat.digitChar (n / 10 % 10), Nat.digitChar (n % 10)]

instance (d : Date) : Decidable d.Valid := by
  unfold Date.Valid; infer_instance

/-! ## Broken-down time (`struct tm`) and the time zone -/

/-- The fields of `struct tm` that the program reads or writes.  `tm_mon` counts
from 0 and `tm_year` from 1900, as in C. -/
structure Tm where
  tm_sec : Int
  tm_min : Int
  tm_hour : Int
  tm_mday : Int
  tm_mon : Int
  tm_year : Int
  tm_isdst : Int
deriving DecidableEq

/-- The calendar date held by a broken-down time. -/
def Tm.date (t : Tm) : Date := ⟨t.tm_year + 1900, t.tm_mon + 1, t.tm_mday⟩

/-- The time of day held by a broken-down time, in seconds after midnight. -/
def Tm.secondOfDay (t : Tm) : Int := t.tm_hour * 3600 + t.tm_min * 60 + t.tm_sec

/-- A broken-down time as `localtime_r` produces it: a date of the calendar and
a time of day. -/
def Tm.Valid (t : Tm) : Prop :=
  t.date.Valid ∧ 0 ≤ t.tm_hour ∧ t.tm_hour ≤ 23 ∧ 0 ≤ t.tm_min ∧ t.tm_min ≤ 59
    ∧ 0 ≤ t.tm_sec ∧ t.tm_sec ≤ 59

instance (t : Tm) : Decidable t.Valid := by
  unfold Tm.Valid; infer_instance

/-- The rules of the local time zone (the environment variable `TZ` and the zone
database), as far as `mktime` consults them.  All three are functions of a
wall-clock time, given as a calendar date and a second of that day.

* `skipped` is 0 for a wall-clock time that exists.  For a wall-clock time that
  a forward change of the clocks skips (the hour that is missing when daylight
  saving time begins), it is the number of seconds by which the clocks are set
  forward.
* `utcOffset` is the number of seconds by which the wall clock is ahead of UTC
  at that time; for a wall-clock time that occurs twice it is the choice of the
  library.
* `isdst` is the value that `tm_isdst` gets: positive while daylight saving time
  is in effect, else 0. -/
structure Zone where
  skipped : Date → Int → Int
  utcOffset : Date → Int → Int
  isdst : Date → Int → Int

/-- The running day number of 1 January 1970, the day of the epoch. -/
def epochDay : Int := (Date.mk 1970 1 1).dayNumber

/-- The calendar time (`time_t`, seconds since the epoch) of a wall-clock time
that exists in the zone. -/
def Zone.timeAt (zone : Zone) (d : Date) (second : Int) : Int :=
  (d.dayNumber - epochDay) * 86400 + second - zone.utcOffset d second

/-- Number of days of month `mon` (0 = January) of the calendar year `year`. -/
def daysInMonth (year mon : Int) : Int :=
  if mon = 1 then (if isLeapYear year then 29 else 28)
  else if mon = 3 ∨ mon = 5 ∨ mon = 8 ∨ mon = 10 then 30
  else 31

/-- The day-of-month normalisation of `mktime` for a day below 1: borrow from
the preceding months until the day is positive.  Arguments are the fuel and the
`tm_year`, `tm_mon`, `tm_mday` fields. -/
def borrowMonths : Nat → Int → Int → Int → Int × Int × Int
  | 0, y, m, d => (y, m, d)
  | fuel + 1, y, m, d =>
    if d ≤ 0 then
      let y1 := if m = 0 then y - 1 else y
      let m1 := if m = 0 then 11 else m - 1
      borrowMonths fuel y1 m1 (d + daysInMonth (y1 + 1900) m1)
    else (y, m, d)

/-- The day-of-month normalisation of `mktime` for a day past the end of the
month: carry into the following months. -/
def carryMonths : Nat → Int → Int → Int → Int × Int × Int
  | 0, y, m, d => (y, m, d)
  | fuel + 1, y, m, d =>
    if daysInMonth (y + 1900) m < d then
      let y1 := if m = 11 then y + 1 else y
      let m1 := if m = 11 then 0 else m + 1
      carryMonths fuel y1 m1 (d - daysInMonth (y + 1900) m)
    else (y, m, d)

/-- The first step of the C library's `mktime` (ISO C 7.27.2.3: the fields are
forced into their ranges, `tm_mday` last): seconds carry into minutes, minutes
into hours, hours into days, months into years, and the day of the month is then
brought into the month by borrowing or carrying whole months.  The fuel given to
the two loops is the distance of the day from 1, and each round moves it by at
least 28.  The field `tm_isdst` is not touched by this step. -/
def normalize (t : Tm) : Tm :=
  let min1 := t.tm_min + t.tm_sec / 60
  let hour1 := t.tm_hour + min1 / 60
  let mday1 := t.tm_mday + hour1 / 24
  let year1 := t.tm_year + t.tm_mon / 12
  let mon1 := t.tm_mon % 12
  let ymd :=
    if mday1 ≤ 0 then borrowMonths (1 - mday1).toNat year1 mon1 mday1
    else carryMonths mday1.toNat year1 mon1 mday1
  { tm_sec := t.tm_sec % 60
    tm_min := min1 % 60
    tm_hour := hour1 % 24
    tm_mday := ymd.2.2
    tm_mon := ymd.2.1
    tm_year := ymd.1
    tm_isdst := t.tm_isdst }

/-- The C library's `mktime` for a structure whose `tm_isdst` is negative, which
asks the library to find out itself whether daylight saving time is in effect;
both calls of the program set `tm_isdst = -1` first (lines 153 and 408), and the
value of the field on entry is not consulted here.  The result is the return
value and the structure as `mktime` leaves it.

The fields are normalised as a wall-clock time.  A wall-clock time that exists
is kept.  A wall-clock time that a change of the clocks skips is moved forward
by the length of the gap (ISO C leaves this case to the implementation; this is
what glibc does: 03:31 on the night when the clocks jump from 03:00 to 04:00
becomes 04:31), which can also move it to the next day.  Then `tm_isdst` is set
from the zone and the calendar time is computed.

The return value `(time_t) -1` is the error value of `mktime`; it is also the
calendar time of the second before the epoch, and the caller cannot tell the two
apart.  With `int` fields and a 64-bit `time_t` every normalised time is
representable, so that second is the only source of -1 here. -/
def mktime (zone : Zone) (t : Tm) : Int × Tm :=
  let wall := normalize t
  let gap := zone.skipped wall.date wall.secondOfDay
  let moved := if gap = 0 then wall else normalize { wall with tm_sec := wall.tm_sec + gap }
  let result := { moved with tm_isdst := zone.isdst moved.date moved.secondOfDay }
  (zone.timeAt result.date result.secondOfDay, result)

/-- The wrapper `ytcd_mktime` of `mktime` (lines 111-118): when `mktime` returns
`(time_t) -1` the process prints a message and exits with status 1, which is
`none` here; otherwise the result is the calendar time and the normalised
structure. -/
def ytcd_mktime (zone : Zone) (timeptr : Tm) : Option (Int × Tm) :=
  let r := mktime zone timeptr
  if r.1 = -1 then none else some r

/-- The wrapper `ytcd_time` of `time` (lines 120-127), applied to the value that
`time (NULL)` returns: `none` is the exit with status 1 on `(time_t) -1`. -/
def ytcd_time (clock : Int) : Option Int :=
  if clock = -1 then none else some clock

/-- The wrapper `ytcd_localtime` of `localtime_r` (lines 104-109), applied to
what `localtime_r` stores (`none` when it returns `NULL`): `none` is the exit
with status 1. -/
def ytcd_localtime (result : Option Tm) : Option Tm := result

/-- The function `subtract_days`: subtract a number of days from a date.  The
result is `none` when `ytcd_mktime` ends the process. -/
def subtract_days (zone : Zone) (date : Tm) (days : Int) : Option Tm :=
  let earlier_date : Tm := { date with tm_mday := date.tm_mday - days, tm_isdst := -1 }
  match ytcd_mktime zone earlier_date with
  | none => none
  | some r => some r.2

/-- A two-digit field of `strftime` (`%m`, `%d`): a decimal number padded with a
zero to two digits. -/
def twoDigits (n : Int) : String :=
  if 0 ≤ n ∧ n < 10 then "0" ++ toString n else toString n

/-- Expansion of a `strftime` format.  Only the conversions the program uses are
interpreted: `%Y` is the year as a decimal number, `%m` the month (01-12) and
`%d` the day of the month (01-31); every other character is copied. -/
def expandFormat : List Char → Tm → String
  | [], _ => ""
  | '%' :: 'Y' :: fmt, t => toString (t.tm_year + 1900) ++ expandFormat fmt t
  | '%' :: 'm' :: fmt, t => twoDigits (t.tm_mon + 1) ++ expandFormat fmt t
  | '%' :: 'd' :: fmt, t => twoDigits t.tm_mday ++ expandFormat fmt t
  | c :: fmt, t => String.mk [c] ++ expandFormat fmt t

/-- The C library's `strftime (s, maxsize, format, timeptr)`: the expansion is
stored when it fits into `maxsize` bytes together with its final NUL; otherwise
the contents of the array are indeterminate (`none`). -/
def strftime (maxsize : Nat) (format : String) (t : Tm) : Option String :=
  let s := expandFormat format.toList t
  if s.length + 1 ≤ maxsize then some s else none

/-- The two date-dependent arguments built at the start of a cycle
(`break_match_filters_arg`, `datebefore_arg`), from the date two days ago
(lines 247-256).  The result is `none` when `subtract_days` ends the process. -/
def dateArgs (zone : Zone) (today : Tm) : Option (Option String × Option String) :=
  match subtract_days zone today 2 with
  | none => none
  | some two_days_ago =>
    some (strftime sizeof_break_match_filters_arg "upload_date >= %Y%m%d" two_days_ago,
      strftime sizeof_datebefore_arg "%Y%m%d" two_days_ago)

/-! ### Time zones used in the examples -/

/-- A time zone without clock changes, on UTC. -/
def Zone.utc : Zone :=
  { skipped := fun _ _ => 0
    utcOffset := fun _ _ => 0
    isdst := fun _ _ => 0 }

/-- The NUL character that ends a C string. -/
def NUL : Char := Char.ofNat 0

/-- The C string stored at the start of a buffer: the characters before the
first NUL. -/
def cstr (buf : List Char) : List Char := buf.takeWhile (fun c => c != NUL)

/-- The C library's `strlen`. -/
def strlen (buf : List Char) : Nat := (cstr buf).length

/-- The characters one call of `fgets` takes from the stream: at most `n`, ending
after the first newline; the second component is the unread rest. -/
def readChunk : Nat → List Char → List Char × List Char
  | 0, stream => ([], stream)
  | _ + 1, [] => ([], [])
  | n + 1, c :: stream =>
    if c = '\n' then ([c], stream)
    else ((readChunk n stream).1.cons c, (readChunk n stream).2)

/-- The C library's `fgets (s, size, stream)`: `none` is the NULL returned at the
end of the file; otherwise the characters read are stored at the start of the
buffer `s`, followed by a NUL, and the bytes of `s` behind them stay as they were. -/
def fgets (s : List Char) (size : Nat) (stream : List Char) : Option (List Char × List Char) :=
  let r := readChunk (size - 1) stream
  if r.1.isEmpty then none
  else some (r.1 ++ NUL :: s.drop (r.1.length + 1), r.2)

/-- The test `ok` in the loop of `is_invalid_youtube_channel_name`. -/
def validChar (c : Char) : Bool :=
  ('a' ≤ c && c ≤ 'z') || ('A' ≤ c && c ≤ 'Z') || ('0' ≤ c && c ≤ '9')
    || c == '.' || c == '_' || c == '-'

/-- The loop of `is_invalid_youtube_channel_name` from index `i` on, with
`channel_name_len - i` rounds left.  The callers pass a length of at most
`strlen`, so every index read lies inside the buffer and the default of `getD`
is never used. -/
def is_invalid_from (channel_name : List Char) : Nat → Nat → Bool
  | 0, _ => false
  | rounds + 1, i =>
    let c := channel_name.getD i NUL
    if !validChar c then true else is_invalid_from channel_name rounds (i + 1)

/-- The function `is_invalid_youtube_channel_name`: whether one of the first `channel_name_len`
characters of the buffer is not a letter, a digit, `.`, `_` or `-`. -/
def is_invalid_youtube_channel_name (channel_name : List Char) (channel_name_len : Nat) : Bool :=
  is_invalid_from channel_name channel_name_len 0

/-- A read of `channel_name[i]`: `none` when the index is outside the array. -/
def readChannelName (channel_name : List Char) (i : Nat) : Option Char :=
  if i < sizeof_channel_name then channel_name.get? i else none

/-- The C library's `snprintf (buf, size, "%s...", ...)` for a result `s`: at
most `size - 1` characters are stored. -/
def snprintf (size : Nat) (s : String) : String := String.mk (s.toList.take (size - 1))

/-! ## Child processes -/

/-- The status `waitpid` stores for a terminated child. -/
inductive WaitStatus where
  | exited (code : Nat)
  | signaled (sig : Nat)
  | other
deriving DecidableEq

/-- The macro `WIFEXITED`. -/
def WIFEXITED : WaitStatus → Bool
  | .exited _ => true
  | _ => false

/-- The macro `WEXITSTATUS`. -/
def WEXITSTATUS : WaitStatus → Nat
  | .exited code => code
  | _ => 0

/-- The macro `WIFSIGNALED`. -/
def WIFSIGNALED : WaitStatus → Bool
  | .signaled _ => true
  | _ => false

/-- The macro `WTERMSIG`. -/
def WTERMSIG : WaitStatus → Nat
  | .signaled sig => sig
  | _ => 0

/-- What one call `waitpid (pid, &status, 0)` does: it returns the child with its
status, or fails with `EINTR`, or fails with another error. -/
inductive WaitResult where
  | status (s : WaitStatus)
  | eintr
  | error
deriving DecidableEq

/-- What the process does that is visible outside it. -/
inductive Event where
  /-- A line written to standard error. -/
  | stderr (line : String)
  /-- A call of `ytcd_fork` while `channel_name` holds `channel`. -/
  | fork (channel : String)
  /-- The call `execvp (file, argv)` of the child. -/
  | execvp (file : String) (argv : List String)
  /-- A call `kill (pid, sig)`. -/
  | kill (sig : Nat)
  /-- A call `sleep (seconds)`. -/
  | sleep (seconds : Int)
deriving DecidableEq

/-- The globals of the program, the unread rest of the open channels file, the
scripts of the environment and the events so far.

* `today`: the variable `today` of `main`;
* `signals`: one entry per read of `shutdown_requested`, telling whether SIGINT
  or SIGTERM was delivered since the previous read (none once the script ends);
* `forks`: one entry per call of `fork`, telling whether it succeeds (it does
  once the script ends);
* `waits`: one entry per call of `waitpid` (it never returns once the script
  ends). -/
structure World where
  shutdown_requested : Bool
  today : Tm
  break_match_filters_arg : String
  bgutil_ytdlp_pot_provider_extractor_args : String
  channel_name : List Char
  datebefore_arg : String
  channels_file : List Char
  signals : List Bool
  forks : List Bool
  waits : List WaitResult
  trace : List Event
deriving DecidableEq

/-- How a piece of the program ends. -/
inductive Flow where
  /-- Control goes on behind it. -/
  | next (w : World)
  /-- It left the enclosing loop by `break`. -/
  | brk (w : World)
  /-- The process called `exit (status)`. -/
  | exit (status : Int) (w : World)
  /-- The function `main` returned `status`. -/
  | ret (status : Int) (w : World)
  /-- An access outside an array: the behaviour is undefined from here on. -/
  | undefined (w : World)
  /-- The contents of a buffer are indeterminate (`strftime` had no room). -/
  | indeterminate (w : World)
  /-- The call of `waitpid` never returns. -/
  | blocked (w : World)
  /-- The script or the fuel ended before the program did. -/
  | unfinished (w : World)
deriving DecidableEq

/-- The state in which a piece of the program ends. -/
def Flow.world : Flow → World
  | .next w => w
  | .brk w => w
  | .exit _ w => w
  | .ret _ w => w
  | .undefined w => w
  | .indeterminate w => w
  | .blocked w => w
  | .unfinished w => w

/-- The handler `handle_signal`: set `shutdown_requested` to 1. -/
def handle_signal (w : World) : World := { w with shutdown_requested := true }

/-- A read of `shutdown_requested`: the handler runs first if a signal was
delivered since the previous read. -/
def pollShutdown (w : World) : Bool × World :=
  match w.signals with
  | [] => (w.shutdown_requested, w)
  | delivered :: signals =>
    let w1 := { w with signals := signals }
    let w2 := if delivered then handle_signal w1 else w1
    (w2.shutdown_requested, w2)

/-- A `fprintf (stderr, ...)` or `perror`. -/
def World.log (w : World) (line : String) : World :=
  { w with trace := w.trace ++ [Event.stderr line] }

/-- The array `yt_dlp_args` (without its final NULL). -/
def yt_dlp_args (w : World) (channel_videos_url : String) : List String :=
  [ "yt-dlp",
    "--break-match-filters", w.break_match_filters_arg,
    "--convert-thumbnails", "jpg",
    "--datebefore", w.datebefore_arg,
    "--download-archive", "/var/lib/ytcd/data/archive.txt",
    "--embed-metadata",
    "--embed-subs",
    "--extractor-args", "youtube:fetch_pot=always;player_client=mweb",
    "--extractor-args", w.bgutil_ytdlp_pot_provider_extractor_args,
    "--extractor-args", "youtubetab:approximate_date",
    "--file-access-retries", "0",
    "--format-sort", "vcodec:h264,lang,quality,res,fps,hdr:12,acodec:aac",
    "--lazy-playlist",
    "--max-sleep-interval", "30",
    "--merge-output-format", "mp4",
    "--no-progress",
    "--output", "/var/lib/ytcd/videos/%(channel)s/Season 01/%(upload_date>%Y-%m-%d)s %(title)s.%(ext)s",
    "--output", "thumbnail:/var/lib/ytcd/videos/%(channel)s/Season 01/%(upload_date>%Y-%m-%d)s %(title)s-thumb.%(ext)s",
    "--output", "pl_thumbnail:/var/lib/ytcd/videos/%(channel)s/cover.jpg",
    "--remux-video", "mp4",
    "--sleep-interval", "20",
    "--sleep-requests", "0.75",
    "--sleep-subtitles", "5",
    "--sponsorblock-remove", "selfpromo,sponsor",
    "--write-thumbnail",
    channel_videos_url ]

/-- What the child does between `fork` and `execvp` (lines 302-366): it builds
the URL of the channel, reports and executes yt-dlp. -/
def childEvents (w : World) : List Event :=
  let channel := String.mk (cstr w.channel_name)
  let channel_videos_url :=
    snprintf sizeof_channel_videos_url ("https://www.youtube.com/@" ++ channel ++ "/videos")
  [ Event.stderr ("[ytcd] INFO: Executing yt-dlp for channel " ++ channel ++ "\n"),
    Event.execvp "yt-dlp" (yt_dlp_args w channel_videos_url) ]

/-- How the loop around `waitpid` (lines 370-384) ends. -/
inductive WaitOutcome where
  /-- A call of `waitpid` returned the child: the loop is left by `break`. -/
  | reaped (status : WaitStatus) (w : World)
  /-- A call of `waitpid` failed with an error other than `EINTR`: `exit (1)`. -/
  | fatal (w : World)
  /-- No call of `waitpid` ever returns the child. -/
  | blocked (w : World)
deriving DecidableEq

/-- The loop around `waitpid` (lines 370-384), run on the results the calls of
`waitpid` will have. -/
def waitLoop : List WaitResult → World → WaitOutcome
  | [], w => .blocked { w with waits := [] }
  | .status s :: rest, w => .reaped s { w with waits := rest }
  | .eintr :: rest, w =>
    let p := pollShutdown w
    let w1 := if p.1 then { p.2 with trace := p.2.trace ++ [Event.kill SIGTERM] } else p.2
    waitLoop rest w1
  | .error :: rest, w => .fatal ({ w with waits := rest }.log "[ytcd] FATAL: waitpid")

/-- The report on the status of the child (lines 386-393). -/
def reportStatus (status : WaitStatus) (w : World) : Flow :=
  if WIFEXITED status then
    let code := WEXITSTATUS status
    .next (w.log ("[ytcd] INFO: yt-dlp exited with code " ++ toString code ++ "\n"))
  else if WIFSIGNALED status then
    let sig := WTERMSIG status
    .exit (128 + sig) (w.log ("[ytcd] INFO: yt-dlp killed by signal " ++ toString sig ++ "\n"))
  else .next w

/-- Lines 296-394: fork a child for the channel in `channel_name`, wait for it
and report. -/
def superviseChild (w : World) : Flow :=
  let channel := String.mk (cstr w.channel_name)
  let w1 := { w with trace := w.trace ++ [Event.fork channel], forks := w.forks.tail }
  if w.forks.headD true then
    let w2 := { w1 with trace := w1.trace ++ childEvents w1 }
    match waitLoop w2.waits w2 with
    | .reaped status w3 => reportStatus status w3
    | .fatal w3 => .exit 1 w3
    | .blocked w3 => .blocked w3
  else .exit 1 (w1.log "[ytcd] FATAL: fork")

/-- The state of the parent when it enters the loop around `waitpid` (line 370):
`fork` has succeeded and the child has replaced itself by yt-dlp.  It is the
state `w2` of `superviseChild`. -/
def afterFork (w : World) : World :=
  let w1 := { w with trace := w.trace ++ [Event.fork (String.mk (cstr w.channel_name))],
                     forks := w.forks.tail }
  { w1 with trace := w1.trace ++ childEvents w1 }

/-- The value of `channel_name_len - 1` in `size_t` (64 bits). -/
def lastIndex (channel_name_len : Nat) : Nat := (channel_name_len + 2 ^ 64 - 1) % 2 ^ 64

/-- Lines 285-394: the rest of the body once the newline is stripped: empty
lines are skipped, invalid names are reported, and yt-dlp is run for the others. -/
def checkAndSpawn (w : World) (channel_name_len : Nat) : Flow :=
  if channel_name_len = 0 then .next w
  else if is_invalid_youtube_channel_name w.channel_name channel_name_len then
    .next (w.log ("[ytcd] ERROR: Channel name is invalid: " ++ String.mk (cstr w.channel_name)
      ++ "\n"))
  else superviseChild w

/-- Lines 267-394: the body of the loop over the lines, behind the test of
`shutdown_requested`, with `channel_name` filled by `fgets`. -/
def processLine (w : World) : Flow :=
  let channel_name_len := strlen w.channel_name
  if channel_name_len = MAX_YOUTUBE_CHANNEL_NAME_LEN + 1
      ∧ w.channel_name.getD MAX_YOUTUBE_CHANNEL_NAME_LEN NUL ≠ '\n' then
    let w1 := { w with channel_name := w.channel_name.set MAX_YOUTUBE_CHANNEL_NAME_LEN NUL }
    .next (w1.log ("[ytcd] ERROR: Channel name is invalid: " ++ String.mk (cstr w1.channel_name)
      ++ "...\n"))
  else
    match readChannelName w.channel_name (lastIndex channel_name_len) with
    | none => .undefined w
    | some c =>
      if c = '\n' then
        checkAndSpawn { w with channel_name := w.channel_name.set (lastIndex channel_name_len) NUL }
          (lastIndex channel_name_len)
      else checkAndSpawn w channel_name_len

/-- Lines 263-394: the body of the loop over the lines. -/
def loopBody (w : World) : Flow :=
  let p := pollShutdown w
  if p.1 then .brk p.2 else processLine p.2

/-- One round of the loop over the lines (lines 262-394): `none` when `fgets`
finds the end of the file. -/
def iteration (w : World) : Option Flow :=
  match fgets w.channel_name sizeof_channel_name w.channels_file with
  | none => none
  | some r => some (loopBody { w with channel_name := r.1, channels_file := r.2 })

/-- The loop over the lines of the channels file (lines 262-394).  Every round
reads at least one character, so as many rounds as the file has characters, and
one more, are enough fuel. -/
def itemLoop : Nat → World → Flow
  | 0, w => .unfinished w
  | fuel + 1, w =>
    match iteration w with
    | none => .next w
    | some (.next w1) => itemLoop fuel w1
    | some (.brk w1) => .next w1
    | some flow => flow

/-- The loop over the lines of the channels file, with enough fuel. -/
def processChannels (w : World) : Flow := itemLoop (w.channels_file.length + 1) w

/-! ## The cycle -/

/-- The conversion `%0<width>d` of `fprintf`. -/
def zeroPad (width : Nat) (n : Int) : String :=
  let sign := if n < 0 then "-" else ""
  let digits := toString n.natAbs
  sign ++ String.mk (List.replicate (width - sign.length - digits.length) '0') ++ digits

/-- What the environment decides in one round of the outer loop: the rules of
the local time zone, the value of `time (NULL)` at the start of the round
(line 234), what `localtime_r` makes of it (`none` when it returns `NULL`), the
contents of `/etc/ytcd/channels.txt` (`none` when the file cannot be opened),
the value of `rand ()`, and the value of `time (NULL)` at line 409. -/
structure Cycle where
  zone : Zone
  clock : Int
  now : Option Tm
  channels : Option (List Char)
  rand : Int
  clock_at_sleep : Int

/-- Lines 404-408: the variable `today` as the end of the round overwrites it:
the following day, hour 0, minute `30 + rand () % 211`, second 0, and
`tm_isdst = -1`.  The operator `%` of C truncates. -/
def wakeRequest (today : Tm) (rand : Int) : Tm :=
  { today with
    tm_mday := today.tm_mday + 1
    tm_hour := 0
    tm_min := 30 + Int.tmod rand 211
    tm_sec := 0
    tm_isdst := -1 }

/-- Line 409: the time to wake up at, `ytcd_mktime (&today)`.  The result is the
calendar time and the normalised structure, or `none` when `ytcd_mktime` ends
the process. -/
def wakeTime (zone : Zone) (today : Tm) (rand : Int) : Option (Int × Tm) :=
  ytcd_mktime zone (wakeRequest today rand)

/-- Lines 396-421: behind the loop over the lines.  The outer loop is left when
shutdown is requested; otherwise the process sleeps until the wake time.  The
two arguments of `difftime` are evaluated in an unspecified order; both exit
with status 1 on failure, and the model calls `ytcd_mktime` first. -/
def endOfCycle (env : Cycle) (w : World) : Flow :=
  let p := pollShutdown w
  if p.1 then .brk p.2
  else
    match wakeTime env.zone p.2.today env.rand with
    | none => .exit 1 (p.2.log "[ytcd] FATAL: mktime")
    | some wake =>
      let today := wake.2
      let w1 := { p.2 with today := today }
      match ytcd_time env.clock_at_sleep with
      | none => .exit 1 (w1.log "[ytcd] FATAL: time")
      | some now =>
        let seconds_to_sleep := wake.1 - now
        if 0 < seconds_to_sleep then
          let w2 := w1.log ("[ytcd] INFO: Sleeping until "
            ++ zeroPad 2 (if today.tm_hour = 0 then 12 else today.tm_hour) ++ ":"
            ++ zeroPad 2 today.tm_min ++ "am on " ++ zeroPad 4 (today.tm_year + 1900) ++ "-"
            ++ zeroPad 2 (today.tm_mon + 1) ++ "-" ++ zeroPad 2 today.tm_mday ++ "\n")
          .next { w2 with trace := w2.trace ++ [Event.sleep seconds_to_sleep] }
        else .next w1

/-- Lines 262-421: the loop over the lines and what follows it in the round. -/
def cycleTail (env : Cycle) (fuel : Nat) (w : World) : Flow :=
  match itemLoop fuel w with
  | .next w1 => endOfCycle env w1
  | flow => flow

/-- Lines 231-421: one round of the outer loop. -/
def cycle (env : Cycle) (w : World) : Flow :=
  match ytcd_time env.clock with
  | none => .exit 1 (w.log "[ytcd] FATAL: time")
  | some _ =>
    match ytcd_localtime env.now with
    | none => .exit 1 (w.log "[ytcd] FATAL: localtime_r")
    | some today =>
      let w1 := { w with today := today }.log ("[ytcd] INFO: Running on "
        ++ zeroPad 4 (today.tm_year + 1900) ++ "-" ++ zeroPad 2 (today.tm_mon + 1) ++ "-"
        ++ zeroPad 2 today.tm_mday ++ "\n")
      match dateArgs env.zone w1.today with
      | none => .exit 1 (w1.log "[ytcd] FATAL: mktime")
      | some (some filter, some stamp) =>
        let w2 := { w1 with break_match_filters_arg := filter, datebefore_arg := stamp }
        match env.channels with
        | none => .exit 1 (w2.log "[ytcd] FATAL: Couldn't open /etc/ytcd/channels.txt")
        | some content => cycleTail env (content.length + 1) { w2 with channels_file := content }
      | some _ => .indeterminate w1

/-- What the outer loop does with the end of a round: it goes on with the next
round, given as `rounds`, or leaves by `break`, and then `main` returns 0. -/
def continueMain (rounds : World → Flow) : Flow → Flow
  | .next w => rounds w
  | .brk w => .ret 0 w
  | flow => flow

/-- Lines 230-424: the outer loop and the return of `main`, for the rounds that
the script describes. -/
def mainLoop : List Cycle → World → Flow
  | [], w => .unfinished w
  | env :: envs, w =>
    let p := pollShutdown w
    if p.1 then .ret 0 p.2
    else continueMain (mainLoop envs) (cycle env p.2)

/-- The state in which the loop around `waitpid` ends. -/
def WaitOutcome.world : WaitOutcome → World
  | .reaped _ w => w
  | .fatal w => w
  | .blocked w => w

/-- A work item of the specification: 1 to 64 characters, each a letter, a
digit, `.`, `_` or `-`. -/
def WorkItem (name : String) : Prop :=
  1 ≤ name.length ∧ name.length ≤ 64 ∧
    ∀ c ∈ name.toList, c.isAlpha ∨ c.isDigit ∨ c = '.' ∨ c = '_' ∨ c = '-'

/-- What a round of the loop leaves untouched when it ends normally. -/
def Frame (w w1 : World) : Prop :=
  w1.shutdown_requested = w.shutdown_requested ∧ w1.signals = w.signals.tail
  ∧ w1.break_match_filters_arg = w.break_match_filters_arg
  ∧ w1.datebefore_arg = w.datebefore_arg
  ∧ w1.bgutil_ytdlp_pot_provider_extractor_args = w.bgutil_ytdlp_pot_provider_extractor_args
  ∧ w1.today = w.today

/-! ## States used in the examples -/

/-- A state at the start of the loop over the lines: the channels file `channels`
is just opened, no shutdown is requested and no signal is pending, every `fork`
succeeds, the calls of `waitpid` answer as `waits` says, and no event has
happened yet. -/
def World.atLoopStart (today : Tm) (filter stamp extractorArgs : String) (buffer : List Char)
    (channels : List Char) (waits : List WaitResult) : World :=
  { shutdown_requested := false
    today := today
    break_match_filters_arg := filter
    bgutil_ytdlp_pot_provider_extractor_args := extractorArgs
    channel_name := buffer
    datebefore_arg := stamp
    channels_file := channels
    signals := []
    forks := []
    waits := waits
    trace := [] }

/-- The state `World.atLoopStart` on 1 March 2024 at noon, with the line buffer
still filled with zeros. -/
def World.sample (channels : List Char) (waits : List WaitResult) : World :=
  World.atLoopStart ⟨0, 0, 12, 1, 2, 124, 0⟩ "upload_date >= 20240228" "20240228"
    "youtubepot-bgutilhttp:base_url=http://pot-provider:4416"
    (List.replicate sizeof_channel_name NUL) channels waits

/-- The channels file of the end-to-end scenario: a line of two spaces, the line
`ValidName1` and the line `BAD!Name`. -/
def scenarioFile : List Char := "  \nValidName1\nBAD!Name\n".toList

/-- The channels for which `ytcd_fork` was called, in the order of the calls. -/
def spawnedChannels (trace : List Event) : List String :=
  trace.filterMap (fun e => match e with | .fork channel => some channel | _ => none)

/-- The lines written to standard error among the events. -/
def stderrLines (trace : List Event) : List String :=
  trace.filterMap (fun e => match e with | .stderr line => some line | _ => none)

/-- A state at the top of the loop over the lines, with the line `abc` unread and
`shutdown_requested` clear: no signal arrives before the read of the variable at
the top of the loop body, one arrives before the next read; `waitpid` is
interrupted once and then returns the child, killed by signal 15. -/
def World.beforeInterruptedWait : World :=
  { World.sample ['a', 'b', 'c', '\n'] [.eintr, .status (.signaled 15)] with
    signals := [false, true] }

/-- The state that `World.beforeInterruptedWait` has become at the call of
`ytcd_fork`: the line is in the buffer without its newline, the file is at its
end, `shutdown_requested` is still clear and the signal is still to come. -/
def World.atInterruptedWait : World :=
  { World.sample [] [.eintr, .status (.signaled 15)] with
    channel_name := ['a', 'b', 'c', NUL] ++ List.replicate 62 NUL
    signals := [true] }

/-- A run of `main` from the start of the outer loop, on 1 March 2024, with the
channels file `abc` (one line): SIGTERM is delivered while the process waits for
the child (the third read of `shutdown_requested` is the one behind the
interrupted `waitpid`), and the child then dies from signal 15. -/
def shutdownRun : Flow :=
  mainLoop [⟨Zone.utc, 1709294400, some ⟨0, 0, 12, 1, 2, 124, 0⟩, some ['a', 'b', 'c', '\n'], 0,
      1709294460⟩]
    { World.sample [] [.eintr, .status (.signaled 15)] with signals := [false, false, true] }

/-! ## Theorems -/

theorem expand_datebefore (t : Tm) :
    expandFormat "%Y%m%d".toList t
      = toString (t.tm_year + 1900) ++ (twoDigits (t.tm_mon + 1) ++ (twoDigits t.tm_mday ++ "")) := rfl

theorem expand_filter (t : Tm) :
    expandFormat "upload_date >= %Y%m%d".toList t
      = "upload_date >= " ++ (toString (t.tm_year + 1900) ++ (twoDigits (t.tm_mon + 1) ++ (twoDigits t.tm_mday ++ ""))) := by
  rfl

theorem toDigits_four (n : Nat) (h1 : 1000 ≤ n) (h2 : n ≤ 9999) :
    Nat.toDigits 10 n = [Nat.digitChar (n / 1000 % 10), Nat.digitChar (n / 100 % 10),
      Nat.digitChar (n / 10 % 10), Nat.digitChar (n % 10)] := by
  obtain ⟨k, rfl⟩ : ∃ k, n = k + 4 := ⟨n - 4, by omega⟩
  have e1 : (k + 4) / 10 ≠ 0 := by omega
  have e2 : (k + 4) / 10 / 10 ≠ 0 := by omega
  have e3 : (k + 4) / 10 / 10 / 10 ≠ 0 := by omega
  have e4 : (k + 4) / 10 / 10 / 10 / 10 = 0 := by omega
  have f1 : (k + 4) / 10 / 10 = (k + 4) / 100 := by omega
  have f2 : (k + 4) / 10 / 10 / 10 = (k + 4) / 1000 := by omega
  have f3 : (k + 4) / 1000 % 10 = (k + 4) / 1000 := by omega
  simp only [Nat.toDigits, Nat.toDigitsCore, e1, e2, e3, e4, if_false, if_true]
  rw [f2, f1, f3]

theorem twoDigits_eq (n : Int) (h1 : 0 ≤ n) (h2 : n ≤ 31) :
    twoDigits n = String.mk [Nat.digitChar (n.toNat / 10 % 10), Nat.digitChar (n.toNat % 10)] := by
  interval_cases n <;> rfl


theorem daysInMonth_eq (y m : Int) : daysInMonth y m = monthLength y (m + 1) := by
  unfold daysInMonth monthLength
  split_ifs <;> first | rfl | omega

theorem monthLength_bounds (y m : Int) : 28 ≤ monthLength y m ∧ monthLength y m ≤ 31 := by
  unfold monthLength
  split_ifs <;> omega

theorem daysInMonth_bounds (y m : Int) : 28 ≤ daysInMonth y m ∧ daysInMonth y m ≤ 31 := by
  unfold daysInMonth
  split_ifs <;> omega

theorem borrowMonths_pos (fuel : Nat) (y m d : Int) (h : 0 < d) :
    borrowMonths fuel y m d = (y, m, d) := by
  cases fuel with
  | zero => rfl
  | succ k => simp [borrowMonths]; omega

theorem carryMonths_le (fuel : Nat) (y m d : Int) (h : d ≤ daysInMonth (y + 1900) m) :
    carryMonths fuel y m d = (y, m, d) := by
  cases fuel with
  | zero => rfl
  | succ k => simp [carryMonths]; omega

theorem borrowMonths_once (fuel : Nat) (y m d : Int) (h : d ≤ 0) (hd : -28 < d) :
    borrowMonths (fuel + 1) y m d
      = (if m = 0 then y - 1 else y, if m = 0 then 11 else m - 1,
          d + daysInMonth ((if m = 0 then y - 1 else y) + 1900) (if m = 0 then 11 else m - 1)) := by
  rw [borrowMonths, if_pos h]
  apply borrowMonths_pos
  have := (daysInMonth_bounds ((if m = 0 then y - 1 else y) + 1900) (if m = 0 then 11 else m - 1)).1
  omega

theorem carryMonths_once (fuel : Nat) (y m d : Int) (h : daysInMonth (y + 1900) m < d)
    (hd : d ≤ daysInMonth (y + 1900) m + 28) :
    carryMonths (fuel + 1) y m d
      = (if m = 11 then y + 1 else y, if m = 11 then 0 else m + 1, d - daysInMonth (y + 1900) m) := by
  rw [carryMonths, if_pos h]
  apply carryMonths_le
  have := (daysInMonth_bounds ((if m = 11 then y + 1 else y) + 1900) (if m = 11 then 0 else m + 1)).1
  omega


/-- The function `normalize` on a structure whose seconds and month are in range, whose
minutes carry into an hour of the same day and whose day of the month is less than one
month off. -/
theorem normalize_near (s mi h d mo y dst : Int) (hh : 0 ≤ h) (hm : 0 ≤ mi)
    (hhm : h + mi / 60 ≤ 23)
    (hs : 0 ≤ s ∧ s ≤ 59) (hmon : 0 ≤ mo ∧ mo ≤ 11)
    (hlo : -28 < d) (hhi : d ≤ daysInMonth (y + 1900) mo + 28) :
    normalize ⟨s, mi, h, d, mo, y, dst⟩ =
      if d ≤ 0 then
        ⟨s, mi % 60, h + mi / 60,
          d + daysInMonth ((if mo = 0 then y - 1 else y) + 1900) (if mo = 0 then 11 else mo - 1),
          if mo = 0 then 11 else mo - 1, if mo = 0 then y - 1 else y, dst⟩
      else if daysInMonth (y + 1900) mo < d then
        ⟨s, mi % 60, h + mi / 60, d - daysInMonth (y + 1900) mo, if mo = 11 then 0 else mo + 1,
          if mo = 11 then y + 1 else y, dst⟩
      else ⟨s, mi % 60, h + mi / 60, d, mo, y, dst⟩ := by
  have e1 : s / 60 = 0 := by omega
  have e3 : (h + mi / 60) / 24 = 0 := by omega
  have e4 : mo / 12 = 0 := by omega
  have e5 : s % 60 = s := by omega
  have e7 : (h + mi / 60) % 24 = h + mi / 60 := by omega
  have e8 : mo % 12 = mo := by omega
  simp only [normalize, e1, e3, e4, e5, e7, e8, add_zero]
  by_cases c1 : d ≤ 0
  · obtain ⟨k, hk⟩ : ∃ k, (1 - d).toNat = k + 1 := ⟨(1 - d).toNat - 1, by omega⟩
    rw [if_pos c1, if_pos c1, hk, borrowMonths_once k y mo d c1 hlo]
  · rw [if_neg c1, if_neg c1]
    obtain ⟨k, hk⟩ : ∃ k, d.toNat = k + 1 := ⟨d.toNat - 1, by omega⟩
    by_cases c2 : daysInMonth (y + 1900) mo < d
    · rw [if_pos c2, hk, carryMonths_once k y mo d c2 hhi]
    · rw [if_neg c2, carryMonths_le _ _ _ _ (by omega)]

theorem Date.pred_valid (d : Date) (h : d.Valid) : d.pred.Valid := by
  obtain ⟨y, m, n⟩ := d
  simp only [Date.Valid, Date.pred] at h ⊢
  have b := monthLength_bounds y (m - 1)
  split_ifs <;> simp only [] <;> refine ⟨?_, ?_, ?_, ?_⟩ <;> first | omega | (simp [monthLength])

theorem Date.pred_pred (y m n : Int) (h : (Date.mk y m n).Valid) :
    (Date.mk y m n).pred.pred =
      if 2 < n then ⟨y, m, n - 2⟩
      else if 1 < m then ⟨y, m - 1, n - 2 + monthLength y (m - 1)⟩
      else ⟨y - 1, 12, n + 29⟩ := by
  obtain ⟨h1, h2, h3, h4⟩ := h
  simp only at h1 h2 h3 h4
  have b := monthLength_bounds y (m - 1)
  by_cases c1 : 2 < n
  · have c2 : 1 < n := by omega
    have c3 : 1 < n - 1 := by omega
    simp only [Date.pred, if_pos c1, if_pos c2, if_pos c3, Date.mk.injEq, true_and]
    omega
  · rw [if_neg c1]
    by_cases c2 : 1 < n
    · have hn : n = 2 := by omega
      subst hn
      by_cases c3 : 1 < m
      · have c4 : 1 < monthLength y (m - 1) := by omega
        simp [Date.pred, c3]
      · simp [Date.pred, c3]
    · have hn : n = 1 := by omega
      subst hn
      by_cases c3 : 1 < m
      · have c4 : 1 < monthLength y (m - 1) := by omega
        simp only [Date.pred, if_neg c2, if_pos c3, if_pos c4, Date.mk.injEq, true_and]
        omega
      · simp [Date.pred, c3]

/-- The wall-clock time that `subtract_days` hands to the time zone: two days before
`today`, at the same time of day. -/
theorem normalize_two_days (today : Tm) (hv : today.Valid) :
    (normalize { today with tm_mday := today.tm_mday - 2, tm_isdst := -1 }).date
      = today.date.pred.pred
    ∧ (normalize { today with tm_mday := today.tm_mday - 2, tm_isdst := -1 }).tm_hour
      = today.tm_hour
    ∧ (normalize { today with tm_mday := today.tm_mday - 2, tm_isdst := -1 }).tm_min
      = today.tm_min
    ∧ (normalize { today with tm_mday := today.tm_mday - 2, tm_isdst := -1 }).tm_sec
      = today.tm_sec := by
  obtain ⟨s, mi, h, d, mo, y, dst⟩ := today
  have hv2 := hv
  obtain ⟨⟨v1, v2, v3, v4⟩, v5, v6, v7, v8, v9, v10⟩ := hv
  simp only [Tm.date] at v1 v2 v3 v4 v5 v6 v7 v8 v9 v10
  have b := daysInMonth_bounds (y + 1900) mo
  rw [← daysInMonth_eq] at v4
  have key := normalize_near s mi h (d - 2) mo y (-1) v5 v7 (by omega) ⟨v9, v10⟩
    ⟨by omega, by omega⟩ (by omega) (by omega)
  have em : mi % 60 = mi := by omega
  have eh : h + mi / 60 = h := by omega
  rw [em, eh] at key
  dsimp only
  rw [key]
  simp only [Tm.date]
  rw [Date.pred_pred _ _ _ hv2.1]
  by_cases c1 : 2 < d
  · have c2 : ¬ d - 2 ≤ 0 := by omega
    have c3 : ¬ daysInMonth (y + 1900) mo < d - 2 := by omega
    simp only [if_pos c1, if_neg c2, if_neg c3, and_self]
  · have c2 : d - 2 ≤ 0 := by omega
    rw [if_neg c1, if_pos c2]
    by_cases c3 : mo = 0
    · subst c3
      simp [daysInMonth]
      omega
    · have c4 : 1 < mo + 1 := by omega
      simp only [if_neg c3, if_pos c4, and_self, and_true, daysInMonth_eq, Date.mk.injEq, true_and]
      constructor
      · omega
      · have : mo - 1 + 1 = mo + 1 - 1 := by omega
        rw [this]

/-- The function `mktime` on a structure whose normalised wall-clock time exists in the
zone: the fields are the normalised ones, `tm_isdst` comes from the zone, and the return
value is the calendar time of that wall-clock time. -/
theorem mktime_of_exists (zone : Zone) (t : Tm)
    (hgap : zone.skipped (normalize t).date (normalize t).secondOfDay = 0) :
    mktime zone t = (zone.timeAt (normalize t).date (normalize t).secondOfDay,
      { normalize t with tm_isdst := zone.isdst (normalize t).date (normalize t).secondOfDay }) := by
  unfold mktime
  simp only [hgap, if_true]
  rfl

/-- The function `ytcd_mktime` on the wall-clock time two days before `today`, when that
time exists in the zone. -/
theorem ytcd_mktime_two_days (zone : Zone) (today : Tm) (hv : today.Valid)
    (hgap : zone.skipped today.date.pred.pred today.secondOfDay = 0) :
    ∃ cutoff : Tm,
      ytcd_mktime zone { today with tm_mday := today.tm_mday - 2, tm_isdst := -1 }
        = (if zone.timeAt today.date.pred.pred today.secondOfDay = -1 then none
           else some (zone.timeAt today.date.pred.pred today.secondOfDay, cutoff))
      ∧ cutoff.date = today.date.pred.pred
      ∧ cutoff.tm_hour = today.tm_hour
      ∧ cutoff.tm_min = today.tm_min
      ∧ cutoff.tm_sec = today.tm_sec
      ∧ cutoff.tm_isdst = zone.isdst today.date.pred.pred today.secondOfDay := by
  obtain ⟨hd, hh, hm, hs⟩ := normalize_two_days today hv
  have hsod : (normalize { today with tm_mday := today.tm_mday - 2, tm_isdst := -1 }).secondOfDay
      = today.secondOfDay := by
    simp only [Tm.secondOfDay, hh, hm, hs]
  have hmk := mktime_of_exists zone { today with tm_mday := today.tm_mday - 2, tm_isdst := -1 }
    (by rw [hd, hsod]; exact hgap)
  rw [hd, hsod] at hmk
  refine ⟨{ normalize { today with tm_mday := today.tm_mday - 2, tm_isdst := -1 } with
    tm_isdst := zone.isdst today.date.pred.pred today.secondOfDay }, ?_, hd, hh, hm, hs, rfl⟩
  unfold ytcd_mktime
  dsimp only
  rw [hmk]

/-- The function `subtract_days` for two days, when the wall-clock time two days before
`today` exists in the zone: the process ends exactly when that time is the second before
the epoch, and otherwise the result is that wall-clock time. -/
theorem subtract_days_two (zone : Zone) (today : Tm) (hv : today.Valid)
    (hgap : zone.skipped today.date.pred.pred today.secondOfDay = 0) :
    (zone.timeAt today.date.pred.pred today.secondOfDay = -1 → subtract_days zone today 2 = none)
    ∧ (zone.timeAt today.date.pred.pred today.secondOfDay ≠ -1 →
        ∃ cutoff : Tm, subtract_days zone today 2 = some cutoff
          ∧ cutoff.date = today.date.pred.pred
          ∧ cutoff.tm_hour = today.tm_hour
          ∧ cutoff.tm_min = today.tm_min
          ∧ cutoff.tm_sec = today.tm_sec) := by
  obtain ⟨cutoff, hm, hd, hh, hmi, hs, -⟩ := ytcd_mktime_two_days zone today hv hgap
  constructor
  · intro he
    unfold subtract_days
    dsimp only
    rw [hm, if_pos he]
  · intro he
    refine ⟨cutoff, ?_, hd, hh, hmi, hs⟩
    unfold subtract_days
    dsimp only
    rw [hm, if_neg he]

theorem Date.pred_year_le (d : Date) : d.pred.year ≤ d.year := by
  unfold Date.pred
  split_ifs <;> simp only <;> omega

theorem toString_fourDigits (y : Int) (h1 : 1000 ≤ y) (h2 : y ≤ 9999) :
    toString y = String.mk [Nat.digitChar (y.toNat / 1000 % 10), Nat.digitChar (y.toNat / 100 % 10),
      Nat.digitChar (y.toNat / 10 % 10), Nat.digitChar (y.toNat % 10)] := by
  obtain ⟨n, rfl⟩ : ∃ n : Nat, y = (n : Int) := ⟨y.toNat, by omega⟩
  have e : toString (n : Int) = String.mk (Nat.toDigits 10 n) := rfl
  rw [e, toDigits_four n (by omega) (by omega)]
  rfl

/-- The two arguments as `strftime` renders them from a structure that holds a date of
the calendar with a four-digit year. -/
theorem strftime_rendered (cutoff : Tm) (hv : cutoff.date.Valid)
    (hyear : 1000 ≤ cutoff.date.year ∧ cutoff.date.year ≤ 9999) :
    strftime sizeof_break_match_filters_arg "upload_date >= %Y%m%d" cutoff
      = some ("upload_date >= " ++ cutoff.date.yyyymmdd)
    ∧ strftime sizeof_datebefore_arg "%Y%m%d" cutoff = some cutoff.date.yyyymmdd := by
  have hb := monthLength_bounds cutoff.date.year cutoff.date.month
  obtain ⟨w1, w2, w3, w4⟩ := hv
  have eY := toString_fourDigits _ hyear.1 hyear.2
  have eM := twoDigits_eq cutoff.date.month (by omega) (by omega)
  have eD := twoDigits_eq cutoff.date.day (by omega) (by omega)
  simp only [strftime, expand_filter, expand_datebefore]
  simp only [Tm.date] at eY eM eD
  rw [eY, eM, eD]
  constructor <;> rfl

theorem dateArgs_rendered (zone : Zone) (today : Tm) (hv : today.Valid)
    (hy : 1000 ≤ today.date.year ∧ today.date.year ≤ 9999)
    (hc : 1000 ≤ today.date.pred.pred.year)
    (hgap : zone.skipped today.date.pred.pred today.secondOfDay = 0)
    (hepoch : zone.timeAt today.date.pred.pred today.secondOfDay ≠ -1) :
    dateArgs zone today
      = some (some ("upload_date >= " ++ today.date.pred.pred.yyyymmdd),
          some today.date.pred.pred.yyyymmdd) := by
  obtain ⟨cutoff, hsub, hd, -⟩ := (subtract_days_two zone today hv hgap).2 hepoch
  have hvd : cutoff.date.Valid := by
    rw [hd]; exact Date.pred_valid _ (Date.pred_valid _ hv.1)
  have hyear : 1000 ≤ cutoff.date.year ∧ cutoff.date.year ≤ 9999 := by
    have l1 := Date.pred_year_le today.date
    have l2 := Date.pred_year_le today.date.pred
    rw [hd]; omega
  obtain ⟨e1, e2⟩ := strftime_rendered cutoff hvd hyear
  unfold dateArgs
  rw [hsub]
  dsimp only
  rw [e1, e2, hd]

theorem validChar_iff (c : Char) :
    validChar c = true ↔ (c.isAlpha ∨ c.isDigit ∨ c = '.' ∨ c = '_' ∨ c = '-') := by
  simp only [validChar, Char.isAlpha, Char.isUpper, Char.isLower, Char.isDigit, Bool.or_eq_true,
    Bool.and_eq_true, decide_eq_true_eq, beq_iff_eq, Char.le_def, ge_iff_le]
  have ha : ('a' : Char).val = 97 := rfl
  have hz : ('z' : Char).val = 122 := rfl
  have hA : ('A' : Char).val = 65 := rfl
  have hZ : ('Z' : Char).val = 90 := rfl
  have h0 : ('0' : Char).val = 48 := rfl
  have h9 : ('9' : Char).val = 57 := rfl
  rw [ha, hz, hA, hZ, h0, h9]
  tauto

/-! ### C strings -/

theorem cstr_cons (c : Char) (buf : List Char) :
    cstr (c :: buf) = if c = NUL then [] else c :: cstr buf := by
  by_cases h : c = NUL
  · simp [cstr, List.takeWhile_cons, h]
  · have e : (c != NUL) = true := by simp [h]
    simp only [cstr, List.takeWhile_cons, e, if_neg h, if_true]

theorem strlen_le (buf : List Char) : strlen buf ≤ buf.length := by
  induction buf with
  | nil => simp [strlen, cstr]
  | cons c buf ih =>
    simp only [strlen, cstr_cons] at ih ⊢
    split_ifs <;> simp only [List.length_cons, List.length_nil] <;> omega

theorem cstr_eq_take (buf : List Char) : cstr buf = buf.take (strlen buf) := by
  induction buf with
  | nil => simp [strlen, cstr]
  | cons c buf ih =>
    simp only [strlen, cstr_cons] at ih ⊢
    split_ifs
    · simp
    · simp only [List.length_cons, List.take_succ_cons]
      rw [← ih]

theorem cstr_append_nul (a t : List Char) (h : NUL ∉ a) : cstr (a ++ NUL :: t) = a := by
  induction a with
  | nil => simp [cstr_cons]
  | cons c a ih =>
    simp only [List.mem_cons, not_or] at h
    simp only [List.cons_append, cstr_cons]
    rw [if_neg (fun e => h.1 e.symm), ih h.2]

theorem strlen_append_nul_le (a t : List Char) : strlen (a ++ NUL :: t) ≤ a.length := by
  induction a with
  | nil => simp [strlen, cstr_cons]
  | cons c a ih =>
    simp only [strlen, List.cons_append, cstr_cons] at ih ⊢
    split_ifs <;> simp only [List.length_cons, List.length_nil] <;> omega

/-- Storing a NUL at an index up to `strlen` ends the string there. -/
theorem cstr_set_nul (buf : List Char) (i : Nat) (h : i ≤ strlen buf) (hl : i < buf.length) :
    cstr (buf.set i NUL) = buf.take i := by
  induction buf generalizing i with
  | nil => simp at hl
  | cons c buf ih =>
    cases i with
    | zero => simp [cstr_cons]
    | succ j =>
      simp only [strlen, cstr_cons] at h ih
      split_ifs at h with hc
      · simp at h
      · simp only [List.length_cons, Nat.add_le_add_iff_right, Nat.add_lt_add_iff_right] at h hl
        simp only [List.set_cons_succ, cstr_cons, if_neg hc, List.take_succ_cons]
        rw [ih j h hl]

theorem is_invalid_from_false (buf : List Char) (rounds i : Nat)
    (h : is_invalid_from buf rounds i = false) (j : Nat) (h1 : i ≤ j) (h2 : j < i + rounds) :
    validChar (buf.getD j NUL) = true := by
  induction rounds generalizing i with
  | zero => omega
  | succ r ih =>
    simp only [is_invalid_from] at h
    split_ifs at h with hc
    rcases Nat.eq_or_lt_of_le h1 with e | e
    · subst e; simpa using hc
    · exact ih (i + 1) h (by omega) (by omega)

theorem is_invalid_from_true (buf : List Char) (rounds i : Nat) (j : Nat) (h1 : i ≤ j)
    (h2 : j < i + rounds) (hj : validChar (buf.getD j NUL) = false) :
    is_invalid_from buf rounds i = true := by
  induction rounds generalizing i with
  | zero => omega
  | succ r ih =>
    simp only [is_invalid_from]
    split_ifs with hc
    · rfl
    · rcases Nat.eq_or_lt_of_le h1 with e | e
      · subst e; rw [hj] at hc; exact absurd rfl hc
      · exact ih (i + 1) (by omega) (by omega)

theorem is_invalid_from_all (buf : List Char) (rounds i : Nat)
    (h : ∀ j, i ≤ j → j < i + rounds → validChar (buf.getD j NUL) = true) :
    is_invalid_from buf rounds i = false := by
  induction rounds generalizing i with
  | zero => rfl
  | succ r ih =>
    simp only [is_invalid_from]
    rw [if_neg (by rw [h i (le_refl i) (by omega)]; decide)]
    exact ih (i + 1) (fun j a b => h j (by omega) (by omega))

/-! ### The events of the pieces of the loop -/

theorem spawnedChannels_append (a b : List Event) :
    spawnedChannels (a ++ b) = spawnedChannels a ++ spawnedChannels b := by
  simp [spawnedChannels, List.filterMap_append]

theorem pollShutdown_fields (w : World) :
    (pollShutdown w).2.trace = w.trace ∧ (pollShutdown w).2.channel_name = w.channel_name
    ∧ (pollShutdown w).2.channels_file = w.channels_file ∧ (pollShutdown w).2.today = w.today
    ∧ (pollShutdown w).2.waits = w.waits ∧ (pollShutdown w).2.forks = w.forks
    ∧ (pollShutdown w).1 = (pollShutdown w).2.shutdown_requested := by
  unfold pollShutdown
  cases w.signals with
  | nil => simp
  | cons d ds => cases d <;> simp [handle_signal]

theorem log_spawned (w : World) (line : String) :
    spawnedChannels (w.log line).trace = spawnedChannels w.trace := by
  simp [World.log, spawnedChannels_append, spawnedChannels]

theorem waitLoop_spawned (ws : List WaitResult) (w : World) :
    spawnedChannels (waitLoop ws w).world.trace = spawnedChannels w.trace := by
  induction ws generalizing w with
  | nil => rfl
  | cons r rest ih =>
    cases r with
    | status s => rfl
    | eintr =>
      simp only [waitLoop]
      rw [ih]
      split_ifs
      · simp [spawnedChannels_append, spawnedChannels, (pollShutdown_fields w).1]
      · rw [(pollShutdown_fields w).1]
    | error =>
      simp only [waitLoop, WaitOutcome.world]
      rw [log_spawned]

theorem reportStatus_spawned (status : WaitStatus) (w : World) :
    spawnedChannels (reportStatus status w).world.trace = spawnedChannels w.trace := by
  unfold reportStatus
  split_ifs <;> simp only [Flow.world, log_spawned]

theorem spawnedChannels_fork (channel : String) : spawnedChannels [Event.fork channel] = [channel] := rfl

theorem spawnedChannels_child (w : World) : spawnedChannels (childEvents w) = [] := rfl

theorem superviseChild_spawned (w : World) :
    spawnedChannels (superviseChild w).world.trace
      = spawnedChannels w.trace ++ [String.mk (cstr w.channel_name)] := by
  unfold superviseChild
  split_ifs
  · simp only []
    split
    all_goals
      rename_i heq
      have key := congrArg (fun o => spawnedChannels o.world.trace) heq
      simp only [] at key
      rw [waitLoop_spawned] at key
      simp only [WaitOutcome.world, spawnedChannels_append, spawnedChannels_fork,
        spawnedChannels_child, List.append_nil] at key
      first
        | rw [reportStatus_spawned, ← key]
        | exact key.symm
  · simp only [Flow.world, log_spawned, spawnedChannels_append, spawnedChannels_fork]

/-! ### Reading a line -/

theorem readChunk_length_le (n : Nat) (stream : List Char) : (readChunk n stream).1.length ≤ n := by
  induction n generalizing stream with
  | zero => simp [readChunk]
  | succ k ih =>
    cases stream with
    | nil => simp [readChunk]
    | cons c cs =>
      simp only [readChunk]
      split_ifs
      · simp
      · have := ih cs
        simp only [List.cons_eq_cons, List.length_cons]
        omega

theorem readChunk_append (n : Nat) (stream : List Char) :
    (readChunk n stream).1 ++ (readChunk n stream).2 = stream := by
  induction n generalizing stream with
  | zero => simp [readChunk]
  | succ k ih =>
    cases stream with
    | nil => simp [readChunk]
    | cons c cs =>
      simp only [readChunk]
      split_ifs
      · simp
      · simp [ih cs]

theorem fgets_some (buf : List Char) (size : Nat) (stream : List Char) (r : List Char × List Char)
    (h : fgets buf size stream = some r) :
    (readChunk (size - 1) stream).1 ≠ []
    ∧ r.1 = (readChunk (size - 1) stream).1 ++ NUL :: buf.drop ((readChunk (size - 1) stream).1.length + 1)
    ∧ r.2 = (readChunk (size - 1) stream).2 := by
  simp only [fgets] at h
  split_ifs at h with he
  simp only [Option.some.injEq] at h
  subst h
  exact ⟨by simpa using he, rfl, rfl⟩

theorem fgets_strlen_le (buf : List Char) (size : Nat) (stream : List Char)
    (r : List Char × List Char) (h : fgets buf size stream = some r) : strlen r.1 ≤ size - 1 := by
  obtain ⟨_, h1, _⟩ := fgets_some buf size stream r h
  rw [h1]
  exact le_trans (strlen_append_nul_le _ _) (readChunk_length_le _ _)

theorem lastIndex_pos (n : Nat) (h1 : 1 ≤ n) (h2 : n ≤ 65) : lastIndex n = n - 1 := by
  unfold lastIndex
  omega

theorem readChannelName_some (buf : List Char) (n : Nat) (c : Char) (hn : n ≤ 65)
    (h : readChannelName buf (lastIndex n) = some c) :
    1 ≤ n ∧ lastIndex n = n - 1 ∧ buf.get? (n - 1) = some c := by
  unfold readChannelName at h
  split_ifs at h with hi
  have h1 : 1 ≤ n := by
    rcases Nat.eq_zero_or_pos n with e | e
    · subst e
      simp [lastIndex, sizeof_channel_name, MAX_YOUTUBE_CHANNEL_NAME_LEN] at hi
    · exact e
  rw [lastIndex_pos n h1 hn] at h
  exact ⟨h1, lastIndex_pos n h1 hn, h⟩

theorem workItem_take (buf : List Char) (n : Nat) (h1 : 1 ≤ n) (h2 : n ≤ 64) (h3 : n ≤ buf.length)
    (hv : ∀ j, j < n → validChar (buf.getD j NUL) = true) : WorkItem (String.mk (buf.take n)) := by
  refine ⟨?_, ?_, ?_⟩
  · show 1 ≤ (buf.take n).length
    rw [List.length_take]; omega
  · show (buf.take n).length ≤ 64
    rw [List.length_take]; omega
  · intro c hc
    have hc2 : c ∈ buf.take n := hc
    obtain ⟨j, hj, rfl⟩ := List.getElem_of_mem hc2
    rw [List.length_take] at hj
    have hjn : j < n := by omega
    have hjl : j < buf.length := by omega
    have := hv j hjn
    rw [List.getD_eq_getElem _ _ hjl] at this
    rw [List.getElem_take]
    exact (validChar_iff _).1 this

/-- What `processLine` lets through to `ytcd_fork` is a work item: the case of a
line whose newline was stripped. -/
theorem accepted_stripped (buf : List Char) (hn : strlen buf ≤ 65)
    (hc : readChannelName buf (lastIndex (strlen buf)) = some '\n')
    (h0 : lastIndex (strlen buf) ≠ 0)
    (hv : is_invalid_youtube_channel_name (buf.set (lastIndex (strlen buf)) NUL)
      (lastIndex (strlen buf)) = false) :
    WorkItem (String.mk (cstr (buf.set (lastIndex (strlen buf)) NUL))) := by
  obtain ⟨h1, h2, h3⟩ := readChannelName_some buf _ _ hn hc
  rw [h2] at h0 hv ⊢
  have hl := strlen_le buf
  rw [cstr_set_nul buf _ (by omega) (by omega)]
  refine workItem_take buf _ (by omega) (by omega) (by omega) ?_
  intro j hj
  have := is_invalid_from_false _ _ _ hv j (Nat.zero_le _) (by omega)
  rwa [List.getD_eq_getElem?_getD, List.getElem?_set_ne (by omega),
    ← List.getD_eq_getElem?_getD] at this

/-- What `processLine` lets through to `ytcd_fork` is a work item: the case of a
line without a newline at its end. -/
theorem accepted_unstripped (buf : List Char) (c : Char) (hn : strlen buf ≤ 65)
    (hlong : ¬ (strlen buf = MAX_YOUTUBE_CHANNEL_NAME_LEN + 1
      ∧ buf.getD MAX_YOUTUBE_CHANNEL_NAME_LEN NUL ≠ '\n'))
    (hc : readChannelName buf (lastIndex (strlen buf)) = some c) (hnl : c ≠ '\n')
    (hv : is_invalid_youtube_channel_name buf (strlen buf) = false) :
    WorkItem (String.mk (cstr buf)) := by
  obtain ⟨h1, h2, h3⟩ := readChannelName_some buf _ _ hn hc
  have hl := strlen_le buf
  have h64 : strlen buf ≤ 64 := by
    by_contra hcon
    have e : strlen buf = 65 := by omega
    apply hlong
    refine ⟨e, ?_⟩
    rw [e] at h3
    simp only [MAX_YOUTUBE_CHANNEL_NAME_LEN]
    rw [List.getD_eq_getElem?_getD, ← List.get?_eq_getElem?, h3]
    simpa using hnl
  rw [cstr_eq_take]
  exact workItem_take buf _ h1 h64 hl
    (fun j hj => is_invalid_from_false _ _ _ hv j (Nat.zero_le _) (by omega))

theorem checkAndSpawn_spawned (w : World) (n : Nat) (name : String)
    (h : name ∈ spawnedChannels (checkAndSpawn w n).world.trace) :
    name ∈ spawnedChannels w.trace
      ∨ (n ≠ 0 ∧ is_invalid_youtube_channel_name w.channel_name n = false
          ∧ name = String.mk (cstr w.channel_name)) := by
  unfold checkAndSpawn at h
  split_ifs at h with h0 hi
  · left; exact h
  · left; rw [Flow.world, log_spawned] at h; exact h
  · rw [superviseChild_spawned, List.mem_append, List.mem_singleton] at h
    rcases h with h | h
    · left; exact h
    · right; exact ⟨h0, by simpa using hi, h⟩

theorem processLine_spawned (w : World) (hn : strlen w.channel_name ≤ 65) (name : String)
    (h : name ∈ spawnedChannels (processLine w).world.trace) :
    name ∈ spawnedChannels w.trace ∨ WorkItem name := by
  unfold processLine at h
  dsimp only at h
  split_ifs at h with hlong
  · left; rw [Flow.world, log_spawned] at h; exact h
  · split at h
    · left; exact h
    · rename_i c hc
      split_ifs at h with hs
      · subst hs
        rcases checkAndSpawn_spawned _ _ _ h with h | ⟨h0, hi, rfl⟩
        · left; exact h
        · right; exact accepted_stripped _ hn hc h0 hi
      · rcases checkAndSpawn_spawned _ _ _ h with h | ⟨h0, hi, rfl⟩
        · left; exact h
        · right; exact accepted_unstripped _ c hn hlong hc hs hi

theorem loopBody_spawned (w : World) (hn : strlen w.channel_name ≤ 65) (name : String)
    (h : name ∈ spawnedChannels (loopBody w).world.trace) :
    name ∈ spawnedChannels w.trace ∨ WorkItem name := by
  unfold loopBody at h
  dsimp only at h
  obtain ⟨ht, hb, -⟩ := pollShutdown_fields w
  split_ifs at h
  · left; rw [Flow.world, ht] at h; exact h
  · rw [← ht]
    exact processLine_spawned _ (by rw [hb]; exact hn) name h

theorem iteration_spawned (w : World) (flow : Flow) (hf : iteration w = some flow) (name : String)
    (h : name ∈ spawnedChannels flow.world.trace) :
    name ∈ spawnedChannels w.trace ∨ WorkItem name := by
  unfold iteration at hf
  split at hf
  · exact absurd hf (by simp)
  · rename_i r hr
    simp only [Option.some.injEq] at hf
    subst hf
    have hlen := fgets_strlen_le _ _ _ _ hr
    exact loopBody_spawned { w with channel_name := r.1, channels_file := r.2 } hlen name h

/-- C9. Whatever the channels file holds and whatever the environment does, every
channel for which the loop over the lines calls `ytcd_fork` is a work item (1 to
64 characters, each a letter, a digit, `.`, `_` or `-`), unless the call was
already among the events before the loop started.  The statement holds for every
amount of fuel, so also for `processChannels`; a run that reads outside the
buffer ends in `Flow.undefined` and has no events after that point. -/
theorem C9_spawned_channels_are_work_items (fuel : Nat) (w : World) (name : String)
    (h : name ∈ spawnedChannels (itemLoop fuel w).world.trace) :
    name ∈ spawnedChannels w.trace ∨ WorkItem name := by
  induction fuel generalizing w with
  | zero => left; exact h
  | succ k ih =>
    unfold itemLoop at h
    split at h
    · left; exact h
    · rename_i w1 hw
      rcases ih w1 h with h1 | h1
      · exact iteration_spawned w _ hw name h1
      · right; exact h1
    · rename_i w1 hw
      exact iteration_spawned w _ hw name h
    · rename_i flow _ _ hw
      exact iteration_spawned w _ hw name h

theorem C9_witness :
    "abc" ∈ spawnedChannels (itemLoop 5 (World.sample ['a', 'b', 'c', '\n'] [.status (.exited 0)])).world.trace
    ∧ ("abc" ∈ spawnedChannels (World.sample ['a', 'b', 'c', '\n'] [.status (.exited 0)]).trace
        ∨ WorkItem "abc") :=
  ⟨by decide, C9_spawned_channels_are_work_items 5 _ "abc" (by decide)⟩

/-- C10. The channels file that holds a NUL followed by a newline: `fgets` returns
the two characters, `strlen` of the buffer is 0, `channel_name_len - 1` wraps to
`2 ^ 64 - 1`, the read of `channel_name[channel_name_len - 1]` is outside the 66
bytes of the buffer, and the loop over the lines ends in undefined behaviour. -/
theorem C10_nul_line_reads_outside_the_buffer :
    (∃ r, fgets (World.sample [NUL, '\n'] []).channel_name sizeof_channel_name [NUL, '\n'] = some r
      ∧ strlen r.1 = 0 ∧ lastIndex (strlen r.1) = 2 ^ 64 - 1
      ∧ readChannelName r.1 (lastIndex (strlen r.1)) = none)
    ∧ ∃ w, processChannels (World.sample [NUL, '\n'] []) = .undefined w :=
  ⟨⟨_, rfl, by decide, by decide, by decide⟩, ⟨_, rfl⟩⟩

/-- C3. The channels file whose only line has 66 characters, 65 times `a` and then
`b`: the first 65 characters are reported as an invalid name, and the rest of the
same line, `b`, is then read as a line of its own and yt-dlp is run for it. -/
theorem C3_rest_of_long_line_is_spawned :
    spawnedChannels (processChannels (World.sample (List.replicate 65 'a' ++ ['b', '\n'])
      [.status (.exited 0)])).world.trace = ["b"]
    ∧ stderrLines (processChannels (World.sample (List.replicate 65 'a' ++ ['b', '\n'])
      [.status (.exited 0)])).world.trace
      = ["[ytcd] ERROR: Channel name is invalid: "
            ++ String.mk (List.replicate 64 'a') ++ "...\n",
         "[ytcd] INFO: Executing yt-dlp for channel b\n",
         "[ytcd] INFO: yt-dlp exited with code 0\n"] := by
  constructor <;> decide

/-! ### The child and its status -/

theorem superviseChild_reaped (w : World) (st : WaitStatus) (rest : List WaitResult)
    (hf : w.forks.headD true = true) (hw : w.waits = .status st :: rest) :
    superviseChild w = reportStatus st
      { w with
        trace := w.trace ++ [Event.fork (String.mk (cstr w.channel_name))]
          ++ childEvents { w with
              trace := w.trace ++ [Event.fork (String.mk (cstr w.channel_name))]
              forks := w.forks.tail }
        forks := w.forks.tail
        waits := rest } := by
  unfold superviseChild
  rw [if_pos hf]
  dsimp only
  rw [hw]
  rfl

theorem exit_propagates (w0 : World) (fuel : Nat) (env : Cycle) (rounds : World → Flow)
    (status : Int) (w1 : World) (h : iteration w0 = some (.exit status w1)) :
    itemLoop (fuel + 1) w0 = .exit status w1
    ∧ continueMain rounds (cycleTail env (fuel + 1) w0) = .exit status w1 := by
  have e : itemLoop (fuel + 1) w0 = .exit status w1 := by
    rw [itemLoop, h]
  exact ⟨e, by rw [cycleTail, e]; rfl⟩

theorem superviseChild_wait (w : World) (hf : w.forks.headD true = true) :
    superviseChild w =
      match waitLoop (afterFork w).waits (afterFork w) with
      | .reaped status w3 => reportStatus status w3
      | .fatal w3 => .exit 1 w3
      | .blocked w3 => .blocked w3 := by
  unfold superviseChild
  rw [if_pos hf]
  rfl

/-- The loop around `waitpid` when `k` calls fail with `EINTR` and the next one returns
the child: the loop ends with the status of the child, and `shutdown_requested` is set
at its end exactly if it was set at its start or a signal was delivered before one of
the `k` reads of the variable. -/
theorem waitLoop_drain (k : Nat) (st : WaitStatus) (rest : List WaitResult) (w : World) :
    ∃ w1, waitLoop (List.replicate k WaitResult.eintr ++ .status st :: rest) w = .reaped st w1
      ∧ w1.shutdown_requested = (w.shutdown_requested || (w.signals.take k).any id)
      ∧ w1.waits = rest := by
  induction k generalizing w with
  | zero => exact ⟨{ w with waits := rest }, rfl, by simp, rfl⟩
  | succ k ih =>
    have hstep : ∀ w2 : World, w2.shutdown_requested = (pollShutdown w).2.shutdown_requested →
        w2.signals = (pollShutdown w).2.signals →
        ∃ w1, waitLoop (List.replicate k WaitResult.eintr ++ .status st :: rest) w2
            = .reaped st w1
          ∧ w1.shutdown_requested = (w.shutdown_requested || (w.signals.take (k + 1)).any id)
          ∧ w1.waits = rest := by
      intro w2 hflag hsig
      obtain ⟨w1, h1, h2, h3⟩ := ih w2
      refine ⟨w1, h1, ?_, h3⟩
      rw [h2, hflag, hsig]
      unfold pollShutdown
      cases hs : w.signals with
      | nil => simp [hs]
      | cons d ds => cases d <;> simp [hs, handle_signal]
    rw [List.replicate_succ, List.cons_append, waitLoop]
    dsimp only
    split_ifs
    · exact hstep _ rfl rfl
    · exact hstep _ rfl rfl

/-- C5, as the code has it.  At the call of `ytcd_fork`, with a successful `fork`, let
`waitpid` fail `k` times with `EINTR` (at each of which `shutdown_requested` is read, and
SIGTERM is forwarded to the child if it is set) and then return the child, terminated by
signal `n`.  Whether `shutdown_requested` was set before, is set by a signal that arrives
while the process waits, or is not set at all, the report is the line
`[ytcd] INFO: yt-dlp killed by signal n` and the process calls `exit (128 + n)`: the exit
goes through the loop over the lines, the rest of the round and the outer loop, so `main`
does not return 0.  At the exit `shutdown_requested` is set exactly if it was set at the
`fork` or a signal was delivered before one of the `k` reads. -/
theorem C5_signal_death_during_shutdown_exits (w : World) (n k : Nat) (rest : List WaitResult)
    (hf : w.forks.headD true = true)
    (hw : w.waits = List.replicate k WaitResult.eintr ++ .status (.signaled n) :: rest) :
    ∃ w1, superviseChild w = .exit (128 + n) w1
      ∧ w1.shutdown_requested = (w.shutdown_requested || (w.signals.take k).any id)
      ∧ w1.trace.getLast? = some (Event.stderr ("[ytcd] INFO: yt-dlp killed by signal "
          ++ toString n ++ "\n"))
      ∧ ∀ (w0 : World) (fuel : Nat) (env : Cycle) (rounds : World → Flow),
          iteration w0 = some (superviseChild w) →
          itemLoop (fuel + 1) w0 = .exit (128 + n) w1
          ∧ continueMain rounds (cycleTail env (fuel + 1) w0) = .exit (128 + n) w1 := by
  obtain ⟨w3, h1, h2, -⟩ := waitLoop_drain k (.signaled n) rest (afterFork w)
  have hwaits : (afterFork w).waits = w.waits := rfl
  have hsup : superviseChild w = .exit (128 + n)
      (w3.log ("[ytcd] INFO: yt-dlp killed by signal " ++ toString n ++ "\n")) := by
    rw [superviseChild_wait w hf, hwaits, hw, h1]
    rfl
  refine ⟨_, hsup, h2, ?_, ?_⟩
  · simp [World.log]
  · intro w0 fuel env rounds h
    rw [hsup] at h
    exact exit_propagates w0 fuel env rounds _ _ h

/-- The instance of C5 in which the shutdown is requested while the process waits: the
line `abc` is read with `shutdown_requested` clear, the loop body reaches `ytcd_fork` in
the state `World.atInterruptedWait`, the first `waitpid` is interrupted by the signal,
the variable is then read as set, and the second `waitpid` returns the child killed by
signal 15. -/
theorem C5_witness :
    World.atInterruptedWait.shutdown_requested = false
    ∧ iteration World.beforeInterruptedWait = some (superviseChild World.atInterruptedWait)
    ∧ ∃ w1, superviseChild World.atInterruptedWait = .exit (128 + 15) w1
      ∧ w1.shutdown_requested = (World.atInterruptedWait.shutdown_requested
          || (World.atInterruptedWait.signals.take 1).any id)
      ∧ w1.trace.getLast? = some (Event.stderr ("[ytcd] INFO: yt-dlp killed by signal "
          ++ toString 15 ++ "\n"))
      ∧ ∀ (w0 : World) (fuel : Nat) (env : Cycle) (rounds : World → Flow),
          iteration w0 = some (superviseChild World.atInterruptedWait) →
          itemLoop (fuel + 1) w0 = .exit (128 + 15) w1
          ∧ continueMain rounds (cycleTail env (fuel + 1) w0) = .exit (128 + 15) w1 :=
  ⟨by decide, by decide,
    C5_signal_death_during_shutdown_exits World.atInterruptedWait 15 1 [] (by decide)
      (by decide)⟩

/-- C5, refuted as stated: in the run `shutdownRun` the shutdown is requested while
the child runs, SIGTERM is forwarded to the child, the child dies from signal 15,
and the process calls `exit (143)`; `main` does not return 0. -/
theorem C5_counterexample :
    ∃ w, shutdownRun = .exit (128 + 15) w ∧ w.shutdown_requested = true
      ∧ Event.kill SIGTERM ∈ w.trace := by
  refine ⟨shutdownRun.world, by decide, by decide, by decide⟩

theorem readChunk_line (n : Nat) (s rest : List Char) (hnl : '\n' ∉ s) (hlen : s.length < n) :
    readChunk n (s ++ '\n' :: rest) = (s ++ ['\n'], rest) := by
  induction s generalizing n with
  | nil =>
    obtain ⟨k, rfl⟩ : ∃ k, n = k + 1 := ⟨n - 1, by simp at hlen; omega⟩
    simp [readChunk]
  | cons c s ih =>
    obtain ⟨k, rfl⟩ : ∃ k, n = k + 1 := ⟨n - 1, by simp at hlen; omega⟩
    simp only [List.mem_cons, not_or] at hnl
    simp only [List.length_cons, Nat.add_lt_add_iff_right] at hlen
    rw [List.cons_append, readChunk, if_neg (fun e => hnl.1 e.symm), ih k hnl.2 hlen]
    rfl

theorem readChunk_last (n : Nat) (s : List Char) (hnl : '\n' ∉ s) (hlen : s.length ≤ n) :
    readChunk n s = (s, []) := by
  induction s generalizing n with
  | nil => cases n <;> rfl
  | cons c s ih =>
    obtain ⟨k, rfl⟩ : ∃ k, n = k + 1 := ⟨n - 1, by simp at hlen; omega⟩
    simp only [List.mem_cons, not_or] at hnl
    simp only [List.length_cons, Nat.add_le_add_iff_right] at hlen
    rw [readChunk, if_neg (fun e => hnl.1 e.symm), ih k hnl.2 hlen]

theorem fgets_line (buf s rest : List Char) (hnl : '\n' ∉ s) (hlen : s.length ≤ 64) :
    fgets buf sizeof_channel_name (s ++ '\n' :: rest)
      = some (s ++ '\n' :: NUL :: buf.drop (s.length + 2), rest) := by
  have e : sizeof_channel_name - 1 = 65 := rfl
  simp only [fgets, e]
  rw [readChunk_line 65 s rest hnl (by omega)]
  simp

theorem fgets_last (buf s : List Char) (hnl : '\n' ∉ s) (h1 : 1 ≤ s.length) (hlen : s.length ≤ 64) :
    fgets buf sizeof_channel_name s = some (s ++ NUL :: buf.drop (s.length + 1), []) := by
  have e : sizeof_channel_name - 1 = 65 := rfl
  simp only [fgets, e]
  rw [readChunk_last 65 s hnl (by omega)]
  have : s ≠ [] := by intro h; rw [h] at h1; simp at h1
  simp [this]

theorem strlen_append_nul (s t : List Char) (hnul : NUL ∉ s) : strlen (s ++ NUL :: t) = s.length := by
  rw [strlen, cstr_append_nul s t hnul]

theorem nul_ne_newline : NUL ≠ '\n' := by decide

/-- The body of the loop on a buffer that holds a line and its newline. -/
theorem processLine_line (w : World) (s t : List Char)
    (hbuf : w.channel_name = s ++ '\n' :: NUL :: t) (hnul : NUL ∉ s) (hlen : s.length ≤ 64) :
    processLine w
      = checkAndSpawn { w with channel_name := s ++ NUL :: NUL :: t } s.length := by
  have hsl : strlen w.channel_name = s.length + 1 := by
    have : w.channel_name = (s ++ ['\n']) ++ NUL :: t := by rw [hbuf]; simp
    rw [this, strlen_append_nul]
    · simp
    · simp only [List.mem_append, List.mem_singleton, not_or]
      exact ⟨hnul, nul_ne_newline⟩
  have hli : lastIndex (s.length + 1) = s.length := by
    rw [lastIndex_pos _ (by omega) (by omega)]; rfl
  have hget : w.channel_name.get? s.length = some '\n' := by
    rw [hbuf, List.get?_eq_getElem?, List.getElem?_append_right (le_refl _)]
    simp
  have hset : w.channel_name.set s.length NUL = s ++ NUL :: NUL :: t := by
    rw [hbuf, List.set_append_right _ _ (le_refl _)]
    simp
  have hlong : ¬ (strlen w.channel_name = MAX_YOUTUBE_CHANNEL_NAME_LEN + 1
      ∧ w.channel_name.getD MAX_YOUTUBE_CHANNEL_NAME_LEN NUL ≠ '\n') := by
    rintro ⟨h1, h2⟩
    rw [hsl] at h1
    have e : s.length = 64 := by simp only [MAX_YOUTUBE_CHANNEL_NAME_LEN] at h1; omega
    apply h2
    simp only [MAX_YOUTUBE_CHANNEL_NAME_LEN]
    rw [← e, List.getD_eq_getElem?_getD, ← List.get?_eq_getElem?, hget]
    rfl
  have hread : readChannelName w.channel_name (lastIndex (strlen w.channel_name)) = some '\n' := by
    rw [hsl, hli, readChannelName, if_pos (by simp only [sizeof_channel_name, MAX_YOUTUBE_CHANNEL_NAME_LEN]; omega)]
    exact hget
  unfold processLine
  dsimp only
  rw [if_neg hlong, hread]
  dsimp only
  rw [if_pos rfl, hsl, hli, hset]

/-- The body of the loop on a buffer that holds a last line without a newline. -/
theorem processLine_last (w : World) (s t : List Char)
    (hbuf : w.channel_name = s ++ NUL :: t) (hnul : NUL ∉ s) (hnl : '\n' ∉ s)
    (h1 : 1 ≤ s.length) (hlen : s.length ≤ 64) :
    processLine w = checkAndSpawn w s.length := by
  have hsl : strlen w.channel_name = s.length := by rw [hbuf, strlen_append_nul s t hnul]
  have hli : lastIndex s.length = s.length - 1 := lastIndex_pos _ h1 (by omega)
  have hlt : s.length - 1 < s.length := by omega
  have hget : w.channel_name.get? (s.length - 1) = some (s.get ⟨s.length - 1, hlt⟩) := by
    rw [hbuf, List.get?_eq_getElem?, List.getElem?_append_left hlt, List.getElem?_eq_getElem hlt]
    rfl
  have hne : s.get ⟨s.length - 1, hlt⟩ ≠ '\n' := fun e => hnl (e ▸ List.get_mem s _ _)
  have hlong : ¬ (strlen w.channel_name = MAX_YOUTUBE_CHANNEL_NAME_LEN + 1
      ∧ w.channel_name.getD MAX_YOUTUBE_CHANNEL_NAME_LEN NUL ≠ '\n') := by
    rintro ⟨h, -⟩
    rw [hsl] at h
    simp only [MAX_YOUTUBE_CHANNEL_NAME_LEN] at h
    omega
  have hread : readChannelName w.channel_name (lastIndex (strlen w.channel_name))
      = some (s.get ⟨s.length - 1, hlt⟩) := by
    rw [hsl, hli, readChannelName, if_pos (by simp only [sizeof_channel_name, MAX_YOUTUBE_CHANNEL_NAME_LEN]; omega)]
    exact hget
  unfold processLine
  dsimp only
  rw [if_neg hlong, hread]
  dsimp only
  rw [if_neg hne, hsl]

theorem getD_append_left (s t : List Char) (j : Nat) (hj : j < s.length) :
    (s ++ t).getD j NUL = s.get ⟨j, hj⟩ := by
  rw [List.getD_eq_getElem?_getD, List.getElem?_append_left hj, List.getElem?_eq_getElem hj]
  rfl

theorem is_invalid_valid (s t : List Char) (hv : ∀ c ∈ s, validChar c = true) :
    is_invalid_youtube_channel_name (s ++ t) s.length = false := by
  apply is_invalid_from_all
  intro j _ hj
  have hj2 : j < s.length := by omega
  rw [getD_append_left s t j hj2]
  exact hv _ (List.get_mem s _ _)

theorem is_invalid_invalid (s t : List Char) (c : Char) (hc : c ∈ s) (hi : validChar c = false) :
    is_invalid_youtube_channel_name (s ++ t) s.length = true := by
  obtain ⟨j, hj, rfl⟩ := List.getElem_of_mem hc
  apply is_invalid_from_true _ _ _ j (Nat.zero_le _) (by omega)
  rw [getD_append_left s t j hj]
  exact hi

theorem checkAndSpawn_valid (w : World) (s t : List Char) (hbuf : w.channel_name = s ++ NUL :: t)
    (h1 : 1 ≤ s.length) (hv : ∀ c ∈ s, validChar c = true) :
    checkAndSpawn w s.length = superviseChild w := by
  unfold checkAndSpawn
  rw [if_neg (by omega), hbuf, is_invalid_valid s _ hv]
  simp

theorem checkAndSpawn_invalid (w : World) (s t : List Char) (hbuf : w.channel_name = s ++ NUL :: t)
    (hnul : NUL ∉ s) (c : Char) (hc : c ∈ s) (hi : validChar c = false) :
    checkAndSpawn w s.length
      = .next (w.log ("[ytcd] ERROR: Channel name is invalid: " ++ String.mk s ++ "\n")) := by
  have h1 : s.length ≠ 0 := by
    intro h
    rw [List.length_eq_zero] at h
    rw [h] at hc
    simp at hc
  unfold checkAndSpawn
  rw [if_neg h1, hbuf, is_invalid_invalid s _ c hc hi, if_pos rfl, cstr_append_nul s t hnul]

theorem pollShutdown_quiet (w : World) (hq : w.shutdown_requested = false)
    (hs : w.signals.headD false = false) :
    pollShutdown w = (false, { w with signals := w.signals.tail }) := by
  obtain ⟨f, td, a, b, c, d, e, sg, fk, wt, tr⟩ := w
  simp only at hq hs
  subst hq
  cases sg with
  | nil => rfl
  | cons x xs =>
    simp only [List.headD_cons] at hs
    subst hs
    rfl

/-- One round of the loop on a line `s` that ends with a newline, without a shutdown
request. -/
theorem iteration_line (w : World) (s rest : List Char) (hfile : w.channels_file = s ++ '\n' :: rest)
    (hnul : NUL ∉ s) (hnl : '\n' ∉ s) (hlen : s.length ≤ 64)
    (hq : w.shutdown_requested = false) (hs : w.signals.headD false = false) :
    iteration w = some (checkAndSpawn
      { w with
        channel_name := s ++ NUL :: NUL :: w.channel_name.drop (s.length + 2)
        channels_file := rest
        signals := w.signals.tail } s.length) := by
  rw [iteration, hfile, fgets_line _ s rest hnl hlen]
  dsimp only
  rw [loopBody, pollShutdown_quiet
    { w with channel_name := s ++ '\n' :: NUL :: w.channel_name.drop (s.length + 2),
             channels_file := rest } hq hs]
  dsimp only
  rw [if_neg (by simp)]
  rw [processLine_line _ s (w.channel_name.drop (s.length + 2)) rfl hnul hlen]

/-- One round of the loop on a last line `s` that has no newline, without a shutdown
request. -/
theorem iteration_last (w : World) (s : List Char) (hfile : w.channels_file = s)
    (hnul : NUL ∉ s) (hnl : '\n' ∉ s) (h1 : 1 ≤ s.length) (hlen : s.length ≤ 64)
    (hq : w.shutdown_requested = false) (hs : w.signals.headD false = false) :
    iteration w = some (checkAndSpawn
      { w with
        channel_name := s ++ NUL :: w.channel_name.drop (s.length + 1)
        channels_file := []
        signals := w.signals.tail } s.length) := by
  rw [iteration, hfile, fgets_last _ s hnl h1 hlen]
  dsimp only
  rw [loopBody, pollShutdown_quiet
    { w with channel_name := s ++ NUL :: w.channel_name.drop (s.length + 1),
             channels_file := [] } hq hs]
  dsimp only
  rw [if_neg (by simp)]
  rw [processLine_last _ s (w.channel_name.drop (s.length + 1)) rfl hnul hnl h1 hlen]

/-- C2, refuted as stated: the line `a` followed by a NUL character has length 2 and a
character outside the set, and it is not rejected.  The buffer is read as a C
string, which ends at the NUL: yt-dlp is run for `a` and no error is written. -/
theorem C2_counterexample :
    (1 ≤ ['a', NUL].length ∧ ['a', NUL].length ≤ 64)
    ∧ (∃ c ∈ ['a', NUL], validChar c = false)
    ∧ spawnedChannels (processChannels
        (World.sample (['a', NUL] ++ ['\n']) [.status (.exited 0)])).world.trace = ["a"]
    ∧ stderrLines (processChannels
        (World.sample (['a', NUL] ++ ['\n']) [.status (.exited 0)])).world.trace
      = ["[ytcd] INFO: Executing yt-dlp for channel a\n",
         "[ytcd] INFO: yt-dlp exited with code 0\n"] := by
  refine ⟨by decide, by decide, by decide, by decide⟩

/-- C2, as the code has it.  Take a line `s` of 1 to 64 characters that holds neither
a NUL nor a newline, standing in the file before a newline or at its end as the
unterminated last line, and no shutdown request.  If every character of `s` is a
letter, a digit, `.`, `_` or `-`, then `is_invalid_youtube_channel_name` returns
false and the round goes on to `ytcd_fork` with `channel_name` holding exactly
`s`, without any event before it.  If some character of `s` is outside that set,
the round writes the invalid-name line for `s` and nothing else: no `ytcd_fork`.
In both cases the next round reads behind the line. -/
theorem C2_line_accepted_or_rejected (w : World) (s tail : List Char)
    (hlen : 1 ≤ s.length ∧ s.length ≤ 64) (hnul : NUL ∉ s) (hnl : '\n' ∉ s)
    (htail : tail = [] ∨ ∃ rest, tail = '\n' :: rest)
    (hfile : w.channels_file = s ++ tail)
    (hq : w.shutdown_requested = false) (hs : w.signals.headD false = false) :
    ((∀ c ∈ s, c.isAlpha ∨ c.isDigit ∨ c = '.' ∨ c = '_' ∨ c = '-') →
      ∃ w1, iteration w = some (superviseChild w1)
        ∧ cstr w1.channel_name = s
        ∧ is_invalid_youtube_channel_name w1.channel_name s.length = false
        ∧ w1.trace = w.trace ∧ w1.channels_file = tail.tail
        ∧ spawnedChannels (superviseChild w1).world.trace
            = spawnedChannels w.trace ++ [String.mk s])
    ∧ ((∃ c ∈ s, ¬ (c.isAlpha ∨ c.isDigit ∨ c = '.' ∨ c = '_' ∨ c = '-')) →
      ∃ w1, iteration w = some (.next w1)
        ∧ w1.trace = w.trace ++ [Event.stderr ("[ytcd] ERROR: Channel name is invalid: "
            ++ String.mk s ++ "\n")]
        ∧ w1.channels_file = tail.tail
        ∧ spawnedChannels w1.trace = spawnedChannels w.trace) := by
  constructor
  · intro hv
    have hv2 : ∀ c ∈ s, validChar c = true := fun c hc => (validChar_iff c).2 (hv c hc)
    rcases htail with rfl | ⟨rest, rfl⟩
    · rw [List.append_nil] at hfile
      refine ⟨{ w with channel_name := s ++ NUL :: w.channel_name.drop (s.length + 1), channels_file := [], signals := w.signals.tail }, ?_, ?_, ?_, rfl, rfl, ?_⟩
      · rw [iteration_last w s hfile hnul hnl hlen.1 hlen.2 hq hs,
          checkAndSpawn_valid _ s _ rfl hlen.1 hv2]
      · exact cstr_append_nul s _ hnul
      · exact is_invalid_valid s _ hv2
      · rw [superviseChild_spawned]
        dsimp only
        rw [cstr_append_nul s _ hnul]
    · refine ⟨{ w with channel_name := s ++ NUL :: NUL :: w.channel_name.drop (s.length + 2), channels_file := rest, signals := w.signals.tail }, ?_, ?_, ?_, rfl, rfl, ?_⟩
      · rw [iteration_line w s rest hfile hnul hnl hlen.2 hq hs,
          checkAndSpawn_valid _ s _ rfl hlen.1 hv2]
      · exact cstr_append_nul s _ hnul
      · exact is_invalid_valid s _ hv2
      · rw [superviseChild_spawned]
        dsimp only
        rw [cstr_append_nul s _ hnul]
  · rintro ⟨c, hc, hi⟩
    have hi2 : validChar c = false := by
      rw [← validChar_iff] at hi
      simpa using hi
    rcases htail with rfl | ⟨rest, rfl⟩
    · rw [List.append_nil] at hfile
      refine ⟨World.log { w with channel_name := s ++ NUL :: w.channel_name.drop (s.length + 1), channels_file := [], signals := w.signals.tail } ("[ytcd] ERROR: Channel name is invalid: " ++ String.mk s ++ "\n"),
        ?_, rfl, rfl, ?_⟩
      · rw [iteration_last w s hfile hnul hnl hlen.1 hlen.2 hq hs,
          checkAndSpawn_invalid _ s _ rfl hnul c hc hi2]
      · rw [log_spawned]
    · refine ⟨World.log { w with channel_name := s ++ NUL :: NUL :: w.channel_name.drop (s.length + 2), channels_file := rest, signals := w.signals.tail } ("[ytcd] ERROR: Channel name is invalid: " ++ String.mk s ++ "\n"),
        ?_, rfl, rfl, ?_⟩
      · rw [iteration_line w s rest hfile hnul hnl hlen.2 hq hs,
          checkAndSpawn_invalid _ s _ rfl hnul c hc hi2]
      · rw [log_spawned]

theorem C2_witness :
    ∃ w1, iteration (World.sample ['a', 'b', 'c', '\n'] []) = some (superviseChild w1)
      ∧ cstr w1.channel_name = ['a', 'b', 'c']
      ∧ is_invalid_youtube_channel_name w1.channel_name ['a', 'b', 'c'].length = false
      ∧ w1.trace = (World.sample ['a', 'b', 'c', '\n'] []).trace
      ∧ w1.channels_file = ['\n'].tail
      ∧ spawnedChannels (superviseChild w1).world.trace
          = spawnedChannels (World.sample ['a', 'b', 'c', '\n'] []).trace ++ [String.mk ['a', 'b', 'c']] :=
  (C2_line_accepted_or_rejected (World.sample ['a', 'b', 'c', '\n'] []) ['a', 'b', 'c'] ['\n']
    (by decide) (by decide) (by decide) (Or.inr ⟨[], rfl⟩) rfl rfl rfl).1 (by decide)

/-! ### Rounds of the loop, with the state they leave -/

theorem round_rejects (w : World) (s rest : List Char) (hfile : w.channels_file = s ++ '\n' :: rest)
    (hnul : NUL ∉ s) (hnl : '\n' ∉ s) (hlen : s.length ≤ 64)
    (hq : w.shutdown_requested = false) (hs : w.signals.headD false = false)
    (c : Char) (hc : c ∈ s) (hi : validChar c = false) :
    ∃ w1, iteration w = some (.next w1)
      ∧ w1.trace = w.trace ++ [Event.stderr ("[ytcd] ERROR: Channel name is invalid: "
          ++ String.mk s ++ "\n")]
      ∧ w1.channels_file = rest ∧ w1.forks = w.forks ∧ w1.waits = w.waits ∧ Frame w w1 := by
  rw [iteration_line w s rest hfile hnul hnl hlen hq hs,
    checkAndSpawn_invalid _ s _ rfl hnul c hc hi]
  exact ⟨_, rfl, rfl, rfl, rfl, rfl, rfl, rfl, rfl, rfl, rfl, rfl⟩

theorem round_skips_empty (w : World) (rest : List Char) (hfile : w.channels_file = '\n' :: rest)
    (hq : w.shutdown_requested = false) (hs : w.signals.headD false = false) :
    ∃ w1, iteration w = some (.next w1) ∧ w1.trace = w.trace
      ∧ w1.channels_file = rest ∧ w1.forks = w.forks ∧ w1.waits = w.waits ∧ Frame w w1 := by
  rw [iteration_line w [] rest hfile (by simp) (by simp) (by simp) hq hs]
  exact ⟨_, rfl, rfl, rfl, rfl, rfl, rfl, rfl, rfl, rfl, rfl, rfl⟩

theorem round_runs_child (w : World) (s rest : List Char) (code : Nat) (wrest : List WaitResult)
    (hfile : w.channels_file = s ++ '\n' :: rest)
    (hnul : NUL ∉ s) (hnl : '\n' ∉ s) (h1 : 1 ≤ s.length) (hlen : s.length ≤ 64)
    (hq : w.shutdown_requested = false) (hs : w.signals.headD false = false)
    (hv : ∀ c ∈ s, validChar c = true)
    (hf : w.forks.headD true = true) (hw : w.waits = .status (.exited code) :: wrest) :
    ∃ w1, iteration w = some (.next w1)
      ∧ w1.trace = w.trace ++
          [ Event.fork (String.mk s),
            Event.stderr ("[ytcd] INFO: Executing yt-dlp for channel " ++ String.mk s ++ "\n"),
            Event.execvp "yt-dlp" (yt_dlp_args w (snprintf sizeof_channel_videos_url
              ("https://www.youtube.com/@" ++ String.mk s ++ "/videos"))),
            Event.stderr ("[ytcd] INFO: yt-dlp exited with code " ++ toString code ++ "\n") ]
      ∧ w1.channels_file = rest ∧ w1.forks = w.forks.tail ∧ w1.waits = wrest ∧ Frame w w1 := by
  have hc := cstr_append_nul s (NUL :: w.channel_name.drop (s.length + 2)) hnul
  rw [iteration_line w s rest hfile hnul hnl hlen hq hs,
    checkAndSpawn_valid _ s _ rfl h1 hv,
    superviseChild_reaped { w with channel_name := s ++ NUL :: NUL :: w.channel_name.drop (s.length + 2), channels_file := rest, signals := w.signals.tail } (.exited code) wrest hf hw]
  refine ⟨_, rfl, ?_, rfl, rfl, rfl, rfl, rfl, rfl, rfl, rfl, rfl⟩
  simp only [World.log, childEvents, WEXITSTATUS, hc, List.append_assoc, List.singleton_append,
    List.cons_append, List.nil_append]
  rfl

theorem iteration_eof (w : World) (h : w.channels_file = []) : iteration w = none := by
  rw [iteration, h]
  rfl

/-- C4, refuted as stated: on the channels file of the scenario the first line, two
spaces, is not skipped silently.  It is reported as an invalid name, so the pass
writes two invalid-name lines, one for the two spaces and one for `BAD!Name`; it
calls `ytcd_fork` once, for `ValidName1`. -/
theorem C4_counterexample :
    stderrLines (processChannels (World.sample scenarioFile [.status (.exited 0)])).world.trace
      = ["[ytcd] ERROR: Channel name is invalid:   \n",
         "[ytcd] INFO: Executing yt-dlp for channel ValidName1\n",
         "[ytcd] INFO: yt-dlp exited with code 0\n",
         "[ytcd] ERROR: Channel name is invalid: BAD!Name\n"]
    ∧ spawnedChannels (processChannels (World.sample scenarioFile [.status (.exited 0)])).world.trace
      = ["ValidName1"] := by
  constructor <;> decide

/-- C4, as the code has it.  For any date `today`, any filter expression and date stamp
in the two argument buffers, any contents of the line buffer, any exit code of the child
and no shutdown request, one pass of the loop over the channels file of the scenario ends
normally at the end of the file and its events are exactly: an invalid-name line for the
two spaces of the first line, one `ytcd_fork` for `ValidName1`, the child executing yt-dlp
with an argument vector that has the filter expression behind `--break-match-filters` and
the date stamp behind `--datebefore`, the report of the exit code, and an invalid-name
line for `BAD!Name`.  The filter expression and the date stamp that the round puts into
the buffers are the ones rendered for the day two days before `today`, when `today` has
a four-digit year, the cutoff too, and the wall-clock time two days before `today` exists
in the time zone and is not the second before the epoch. -/
theorem C4_scenario_pass (zone : Zone) (today : Tm) (filter stamp extractorArgs : String)
    (buffer : List Char) (code : Nat) (rest : List WaitResult) :
    (today.Valid → (1000 ≤ today.date.year ∧ today.date.year ≤ 9999) →
      1000 ≤ today.date.pred.pred.year →
      zone.skipped today.date.pred.pred today.secondOfDay = 0 →
      zone.timeAt today.date.pred.pred today.secondOfDay ≠ -1 →
      dateArgs zone today = some (some ("upload_date >= " ++ today.date.pred.pred.yyyymmdd),
        some today.date.pred.pred.yyyymmdd))
    ∧ ∃ w1 argv,
      processChannels (World.atLoopStart today filter stamp extractorArgs buffer scenarioFile
        (.status (.exited code) :: rest)) = .next w1
      ∧ w1.trace =
          [ Event.stderr "[ytcd] ERROR: Channel name is invalid:   \n",
            Event.fork "ValidName1",
            Event.stderr "[ytcd] INFO: Executing yt-dlp for channel ValidName1\n",
            Event.execvp "yt-dlp" argv,
            Event.stderr ("[ytcd] INFO: yt-dlp exited with code " ++ toString code ++ "\n"),
            Event.stderr "[ytcd] ERROR: Channel name is invalid: BAD!Name\n" ]
      ∧ argv.take 3 = ["yt-dlp", "--break-match-filters", filter]
      ∧ (argv.drop 5).take 2 = ["--datebefore", stamp]
      ∧ argv.getLast? = some "https://www.youtube.com/@ValidName1/videos"
      ∧ w1.channels_file = [] := by
  refine ⟨fun hv hy hc hgap hepoch => dateArgs_rendered zone today hv hy hc hgap hepoch, ?_⟩
  obtain ⟨w1, i1, t1, f1, k1, a1, q1, s1, b1, d1, x1, -⟩ :=
    round_rejects (World.atLoopStart today filter stamp extractorArgs buffer scenarioFile
        (.status (.exited code) :: rest))
      [' ', ' '] "ValidName1\nBAD!Name\n".toList rfl (by decide) (by decide) (by decide)
      rfl rfl ' ' (by decide) (by decide)
  obtain ⟨w2, i2, t2, f2, k2, a2, q2, s2, -⟩ :=
    round_runs_child w1 "ValidName1".toList "BAD!Name\n".toList code rest f1 (by decide)
      (by decide) (by decide) (by decide) (by rw [q1]; rfl) (by rw [s1]; rfl) (by decide)
      (by rw [k1]; rfl) (by rw [a1]; rfl)
  obtain ⟨w3, i3, t3, f3, -⟩ :=
    round_rejects w2 "BAD!Name".toList [] f2 (by decide) (by decide) (by decide)
      (by rw [q2, q1]; rfl) (by rw [s2, s1]; rfl) '!' (by decide) (by decide)
  have i4 := iteration_eof w3 f3
  refine ⟨w3, yt_dlp_args w1 (snprintf sizeof_channel_videos_url
    ("https://www.youtube.com/@" ++ String.mk "ValidName1".toList ++ "/videos")), ?_, ?_, ?_, ?_, ?_, f3⟩
  · show itemLoop (20 + 1 + 1 + 1 + 1) _ = _
    rw [itemLoop, i1]
    dsimp only
    rw [itemLoop, i2]
    dsimp only
    rw [itemLoop, i3]
    dsimp only
    rw [itemLoop, i4]
  · rw [t3, t2, t1]
    rfl
  · simp only [yt_dlp_args, b1, List.take]
    rfl
  · simp only [yt_dlp_args, d1, List.drop, List.take]
    rfl
  · rfl

/-! ### The fuel of the loop over the lines is enough -/

theorem waitLoop_file (ws : List WaitResult) (w : World) :
    (waitLoop ws w).world.channels_file = w.channels_file := by
  induction ws generalizing w with
  | nil => rfl
  | cons r rest ih =>
    cases r with
    | status s => rfl
    | eintr =>
      simp only [waitLoop]
      rw [ih]
      split_ifs
      · exact (pollShutdown_fields w).2.2.1
      · exact (pollShutdown_fields w).2.2.1
    | error => rfl

theorem reportStatus_file (status : WaitStatus) (w : World) :
    (reportStatus status w).world.channels_file = w.channels_file := by
  unfold reportStatus
  split_ifs <;> rfl

theorem superviseChild_file (w : World) :
    (superviseChild w).world.channels_file = w.channels_file := by
  unfold superviseChild
  split_ifs
  · dsimp only
    split
    all_goals
      rename_i heq
      have key := congrArg (fun o => o.world.channels_file) heq
      simp only [] at key
      rw [waitLoop_file] at key
      first
        | rw [reportStatus_file]; exact key.symm
        | exact key.symm
  · rfl

theorem checkAndSpawn_file (w : World) (n : Nat) :
    (checkAndSpawn w n).world.channels_file = w.channels_file := by
  unfold checkAndSpawn
  split_ifs
  · rfl
  · rfl
  · exact superviseChild_file w

theorem processLine_file (w : World) : (processLine w).world.channels_file = w.channels_file := by
  unfold processLine
  dsimp only
  split_ifs
  · rfl
  · split
    · rfl
    · split_ifs
      · rw [checkAndSpawn_file]
      · rw [checkAndSpawn_file]

theorem loopBody_file (w : World) : (loopBody w).world.channels_file = w.channels_file := by
  unfold loopBody
  dsimp only
  split_ifs
  · exact (pollShutdown_fields w).2.2.1
  · rw [processLine_file]; exact (pollShutdown_fields w).2.2.1

theorem iteration_shortens (w : World) (flow : Flow) (h : iteration w = some flow) :
    flow.world.channels_file.length < w.channels_file.length := by
  unfold iteration at h
  split at h
  · exact absurd h (by simp)
  · rename_i r hr
    simp only [Option.some.injEq] at h
    subst h
    rw [loopBody_file]
    obtain ⟨hne, -, h2⟩ := fgets_some _ _ _ _ hr
    have happ := readChunk_append (sizeof_channel_name - 1) w.channels_file
    have hlen := congrArg List.length happ
    rw [List.length_append] at hlen
    have hpos : 0 < (readChunk (sizeof_channel_name - 1) w.channels_file).1.length :=
      List.length_pos.2 hne
    show r.2.length < _
    rw [h2]
    omega

theorem reportStatus_ne_unfinished (status : WaitStatus) (w w1 : World) :
    reportStatus status w ≠ .unfinished w1 := by
  unfold reportStatus
  split_ifs <;> simp

theorem superviseChild_ne_unfinished (w w1 : World) : superviseChild w ≠ .unfinished w1 := by
  unfold superviseChild
  split_ifs
  · dsimp only
    split
    · exact reportStatus_ne_unfinished _ _ _
    · simp
    · simp
  · simp

theorem checkAndSpawn_ne_unfinished (w : World) (n : Nat) (w1 : World) :
    checkAndSpawn w n ≠ .unfinished w1 := by
  unfold checkAndSpawn
  split_ifs
  · simp
  · simp
  · exact superviseChild_ne_unfinished _ _

theorem loopBody_ne_unfinished (w w1 : World) : loopBody w ≠ .unfinished w1 := by
  unfold loopBody processLine
  dsimp only
  split_ifs
  · simp
  · simp
  · split
    · simp
    · split_ifs
      · exact checkAndSpawn_ne_unfinished _ _ _
      · exact checkAndSpawn_ne_unfinished _ _ _

/-- With more fuel than the file has characters, the loop over the lines ends on
its own: it is never cut off by the fuel. -/
theorem itemLoop_finishes (fuel : Nat) (w : World) (h : w.channels_file.length < fuel)
    (w1 : World) : itemLoop fuel w ≠ .unfinished w1 := by
  induction fuel generalizing w with
  | zero => omega
  | succ k ih =>
    unfold itemLoop
    split
    · simp
    · rename_i w2 hw
      have := iteration_shortens w _ hw
      exact ih w2 (by simp only [Flow.world] at this; omega)
    · simp
    · rename_i flow hn hb hw
      intro e
      subst e
      unfold iteration at hw
      split at hw
      · exact absurd hw (by simp)
      · simp only [Option.some.injEq] at hw
        exact loopBody_ne_unfinished _ _ hw

theorem processChannels_finishes (w w1 : World) : processChannels w ≠ .unfinished w1 :=
  itemLoop_finishes _ w (Nat.lt_succ_self _) w1

/-- The instance of C4 on 1 March 2024 at noon, UTC, with the arguments rendered for
28 February in the buffers. -/
theorem C4_witness :
    (Tm.mk 0 0 12 1 2 124 0).Valid
    ∧ (Tm.mk 0 0 12 1 2 124 0).date.pred.pred = Date.mk 2024 2 28
    ∧ dateArgs Zone.utc (Tm.mk 0 0 12 1 2 124 0)
        = some (some ("upload_date >= " ++ (Tm.mk 0 0 12 1 2 124 0).date.pred.pred.yyyymmdd),
            some (Tm.mk 0 0 12 1 2 124 0).date.pred.pred.yyyymmdd)
    ∧ ∃ w1 argv,
      processChannels (World.atLoopStart (Tm.mk 0 0 12 1 2 124 0) "upload_date >= 20240228"
        "20240228" "" [] scenarioFile (.status (.exited 0) :: [])) = .next w1
      ∧ w1.trace =
          [ Event.stderr "[ytcd] ERROR: Channel name is invalid:   \n",
            Event.fork "ValidName1",
            Event.stderr "[ytcd] INFO: Executing yt-dlp for channel ValidName1\n",
            Event.execvp "yt-dlp" argv,
            Event.stderr ("[ytcd] INFO: yt-dlp exited with code " ++ toString 0 ++ "\n"),
            Event.stderr "[ytcd] ERROR: Channel name is invalid: BAD!Name\n" ]
      ∧ argv.take 3 = ["yt-dlp", "--break-match-filters", "upload_date >= 20240228"]
      ∧ (argv.drop 5).take 2 = ["--datebefore", "20240228"]
      ∧ argv.getLast? = some "https://www.youtube.com/@ValidName1/videos"
      ∧ w1.channels_file = [] :=
  ⟨by decide, by decide,
    (C4_scenario_pass Zone.utc (Tm.mk 0 0 12 1 2 124 0) "upload_date >= 20240228" "20240228" ""
      [] 0 []).1 (by decide) (by decide) (by decide) (by decide) (by decide),
    (C4_scenario_pass Zone.utc (Tm.mk 0 0 12 1 2 124 0) "upload_date >= 20240228" "20240228" ""
      [] 0 []).2⟩

end Ytcd
